import Mathlib

/-!
# FPGA CRI hook (`cmd/fpga_crihook/main.go`)

A shallow embedding of the container-creation hook that resolves FPGA
provisioning requests from the bundle configuration, matches them to devices
by interface identity, validates and programs bitstreams, and re-reads the
programmed function.

Conventions of the embedding

* Go strings are lists of characters (`GoString`).
* Go maps are association lists with distinct keys; a Go set
  (`map[string]struct{}`) is a list of distinct keys.  The order in which a
  `range` loop visits a map is not fixed by the language, so every loop over a
  map takes its visiting order from an explicit function `rangeOrder`.
* The file system, the hardware-reported files and the external tools are an
  explicit world: a state and functions reading or changing it.  Every
  interaction is recorded as an `Event`.
* A run-time panic of the Go program is the error `HookError.runtimePanic`.
-/

namespace FpgaCrihook

/-! ## Strings and constants -/

/-- A Go string, as its list of characters. -/
abbrev GoString := List Char

def fpgaBitStreamDirectory : GoString := "/srv/intel.com/fpga".toList
def packager : GoString := "/opt/intel/fpga-sw/opae/bin/packager".toList
def fpgaconf : GoString := "/opt/intel/fpga-sw/opae/fpgaconf-wrapper".toList
def aocl : GoString := "/opt/intel/fpga-sw/opencl/aocl-wrapper".toList
def configJSON : GoString := "config.json".toList
def fpgaRegionEnvPrefix : GoString := "FPGA_REGION_".toList
def fpgaAfuEnvPrefix : GoString := "FPGA_AFU_".toList
def afuIDTemplate : GoString :=
  "/sys/class/fpga/intel-fpga-dev.%s/intel-fpga-port.%s/afu_id".toList
def interfaceIDTemplate : GoString :=
  "/sys/class/fpga/intel-fpga-dev.%s/intel-fpga-fme.%s/pr/interface_id".toList
def annotationName : GoString := "com.intel.fpga.mode".toList
def annotationValue : GoString := "fpga.intel.com/region".toList

/-- The function `strings.Replace(s, "-", "", -1)`: every hyphen is deleted. -/
def removeHyphens (s : GoString) : GoString :=
  s.filter (fun c => c != '-')

/-- The table `unicode.CaseRanges` of Unicode 14.0, as far as it maps to lower
case: the characters from the first number to the second, in steps of the
third, have the lower-case forms that start at the fourth number and go in
the same steps. -/
def lowerCaseRanges : List (Nat × Nat × Nat × Nat) :=
  [(0x0041, 0x005A, 1, 0x0061), (0x00C0, 0x00D6, 1, 0x00E0), (0x00D8, 0x00DE, 1, 0x00F8),
   (0x0100, 0x012E, 2, 0x0101), (0x0130, 0x0130, 1, 0x0069), (0x0132, 0x0136, 2, 0x0133),
   (0x0139, 0x0147, 2, 0x013A), (0x014A, 0x0176, 2, 0x014B), (0x0178, 0x0178, 1, 0x00FF),
   (0x0179, 0x017D, 2, 0x017A), (0x0181, 0x0181, 1, 0x0253), (0x0182, 0x0184, 2, 0x0183),
   (0x0186, 0x0186, 1, 0x0254), (0x0187, 0x0187, 1, 0x0188), (0x0189, 0x018A, 1, 0x0256),
   (0x018B, 0x018B, 1, 0x018C), (0x018E, 0x018E, 1, 0x01DD), (0x018F, 0x018F, 1, 0x0259),
   (0x0190, 0x0190, 1, 0x025B), (0x0191, 0x0191, 1, 0x0192), (0x0193, 0x0193, 1, 0x0260),
   (0x0194, 0x0194, 1, 0x0263), (0x0196, 0x0196, 1, 0x0269), (0x0197, 0x0197, 1, 0x0268),
   (0x0198, 0x0198, 1, 0x0199), (0x019C, 0x019C, 1, 0x026F), (0x019D, 0x019D, 1, 0x0272),
   (0x019F, 0x019F, 1, 0x0275), (0x01A0, 0x01A4, 2, 0x01A1), (0x01A6, 0x01A6, 1, 0x0280),
   (0x01A7, 0x01A7, 1, 0x01A8), (0x01A9, 0x01A9, 1, 0x0283), (0x01AC, 0x01AC, 1, 0x01AD),
   (0x01AE, 0x01AE, 1, 0x0288), (0x01AF, 0x01AF, 1, 0x01B0), (0x01B1, 0x01B2, 1, 0x028A),
   (0x01B3, 0x01B5, 2, 0x01B4), (0x01B7, 0x01B7, 1, 0x0292), (0x01B8, 0x01B8, 1, 0x01B9),
   (0x01BC, 0x01BC, 1, 0x01BD), (0x01C4, 0x01C4, 1, 0x01C6), (0x01C5, 0x01C5, 1, 0x01C6),
   (0x01C7, 0x01C7, 1, 0x01C9), (0x01C8, 0x01C8, 1, 0x01C9), (0x01CA, 0x01CA, 1, 0x01CC),
   (0x01CB, 0x01DB, 2, 0x01CC), (0x01DE, 0x01EE, 2, 0x01DF), (0x01F1, 0x01F1, 1, 0x01F3),
   (0x01F2, 0x01F4, 2, 0x01F3), (0x01F6, 0x01F6, 1, 0x0195), (0x01F7, 0x01F7, 1, 0x01BF),
   (0x01F8, 0x021E, 2, 0x01F9), (0x0220, 0x0220, 1, 0x019E), (0x0222, 0x0232, 2, 0x0223),
   (0x023A, 0x023A, 1, 0x2C65), (0x023B, 0x023B, 1, 0x023C), (0x023D, 0x023D, 1, 0x019A),
   (0x023E, 0x023E, 1, 0x2C66), (0x0241, 0x0241, 1, 0x0242), (0x0243, 0x0243, 1, 0x0180),
   (0x0244, 0x0244, 1, 0x0289), (0x0245, 0x0245, 1, 0x028C), (0x0246, 0x024E, 2, 0x0247),
   (0x0370, 0x0372, 2, 0x0371), (0x0376, 0x0376, 1, 0x0377), (0x037F, 0x037F, 1, 0x03F3),
   (0x0386, 0x0386, 1, 0x03AC), (0x0388, 0x038A, 1, 0x03AD), (0x038C, 0x038C, 1, 0x03CC),
   (0x038E, 0x038F, 1, 0x03CD), (0x0391, 0x03A1, 1, 0x03B1), (0x03A3, 0x03AB, 1, 0x03C3),
   (0x03CF, 0x03CF, 1, 0x03D7), (0x03D8, 0x03EE, 2, 0x03D9), (0x03F4, 0x03F4, 1, 0x03B8),
   (0x03F7, 0x03F7, 1, 0x03F8), (0x03F9, 0x03F9, 1, 0x03F2), (0x03FA, 0x03FA, 1, 0x03FB),
   (0x03FD, 0x03FF, 1, 0x037B), (0x0400, 0x040F, 1, 0x0450), (0x0410, 0x042F, 1, 0x0430),
   (0x0460, 0x0480, 2, 0x0461), (0x048A, 0x04BE, 2, 0x048B), (0x04C0, 0x04C0, 1, 0x04CF),
   (0x04C1, 0x04CD, 2, 0x04C2), (0x04D0, 0x052E, 2, 0x04D1), (0x0531, 0x0556, 1, 0x0561),
   (0x10A0, 0x10C5, 1, 0x2D00), (0x10C7, 0x10C7, 1, 0x2D27), (0x10CD, 0x10CD, 1, 0x2D2D),
   (0x13A0, 0x13EF, 1, 0xAB70), (0x13F0, 0x13F5, 1, 0x13F8), (0x1C90, 0x1CBA, 1, 0x10D0),
   (0x1CBD, 0x1CBF, 1, 0x10FD), (0x1E00, 0x1E94, 2, 0x1E01), (0x1E9E, 0x1E9E, 1, 0x00DF),
   (0x1EA0, 0x1EFE, 2, 0x1EA1), (0x1F08, 0x1F0F, 1, 0x1F00), (0x1F18, 0x1F1D, 1, 0x1F10),
   (0x1F28, 0x1F2F, 1, 0x1F20), (0x1F38, 0x1F3F, 1, 0x1F30), (0x1F48, 0x1F4D, 1, 0x1F40),
   (0x1F59, 0x1F5F, 2, 0x1F51), (0x1F68, 0x1F6F, 1, 0x1F60), (0x1F88, 0x1F8F, 1, 0x1F80),
   (0x1F98, 0x1F9F, 1, 0x1F90), (0x1FA8, 0x1FAF, 1, 0x1FA0), (0x1FB8, 0x1FB9, 1, 0x1FB0),
   (0x1FBA, 0x1FBB, 1, 0x1F70), (0x1FBC, 0x1FBC, 1, 0x1FB3), (0x1FC8, 0x1FCB, 1, 0x1F72),
   (0x1FCC, 0x1FCC, 1, 0x1FC3), (0x1FD8, 0x1FD9, 1, 0x1FD0), (0x1FDA, 0x1FDB, 1, 0x1F76),
   (0x1FE8, 0x1FE9, 1, 0x1FE0), (0x1FEA, 0x1FEB, 1, 0x1F7A), (0x1FEC, 0x1FEC, 1, 0x1FE5),
   (0x1FF8, 0x1FF9, 1, 0x1F78), (0x1FFA, 0x1FFB, 1, 0x1F7C), (0x1FFC, 0x1FFC, 1, 0x1FF3),
   (0x2126, 0x2126, 1, 0x03C9), (0x212A, 0x212A, 1, 0x006B), (0x212B, 0x212B, 1, 0x00E5),
   (0x2132, 0x2132, 1, 0x214E), (0x2160, 0x216F, 1, 0x2170), (0x2183, 0x2183, 1, 0x2184),
   (0x24B6, 0x24CF, 1, 0x24D0), (0x2C00, 0x2C2F, 1, 0x2C30), (0x2C60, 0x2C60, 1, 0x2C61),
   (0x2C62, 0x2C62, 1, 0x026B), (0x2C63, 0x2C63, 1, 0x1D7D), (0x2C64, 0x2C64, 1, 0x027D),
   (0x2C67, 0x2C6B, 2, 0x2C68), (0x2C6D, 0x2C6D, 1, 0x0251), (0x2C6E, 0x2C6E, 1, 0x0271),
   (0x2C6F, 0x2C6F, 1, 0x0250), (0x2C70, 0x2C70, 1, 0x0252), (0x2C72, 0x2C72, 1, 0x2C73),
   (0x2C75, 0x2C75, 1, 0x2C76), (0x2C7E, 0x2C7F, 1, 0x023F), (0x2C80, 0x2CE2, 2, 0x2C81),
   (0x2CEB, 0x2CED, 2, 0x2CEC), (0x2CF2, 0x2CF2, 1, 0x2CF3), (0xA640, 0xA66C, 2, 0xA641),
   (0xA680, 0xA69A, 2, 0xA681), (0xA722, 0xA72E, 2, 0xA723), (0xA732, 0xA76E, 2, 0xA733),
   (0xA779, 0xA77B, 2, 0xA77A), (0xA77D, 0xA77D, 1, 0x1D79), (0xA77E, 0xA786, 2, 0xA77F),
   (0xA78B, 0xA78B, 1, 0xA78C), (0xA78D, 0xA78D, 1, 0x0265), (0xA790, 0xA792, 2, 0xA791),
   (0xA796, 0xA7A8, 2, 0xA797), (0xA7AA, 0xA7AA, 1, 0x0266), (0xA7AB, 0xA7AB, 1, 0x025C),
   (0xA7AC, 0xA7AC, 1, 0x0261), (0xA7AD, 0xA7AD, 1, 0x026C), (0xA7AE, 0xA7AE, 1, 0x026A),
   (0xA7B0, 0xA7B0, 1, 0x029E), (0xA7B1, 0xA7B1, 1, 0x0287), (0xA7B2, 0xA7B2, 1, 0x029D),
   (0xA7B3, 0xA7B3, 1, 0xAB53), (0xA7B4, 0xA7C2, 2, 0xA7B5), (0xA7C4, 0xA7C4, 1, 0xA794),
   (0xA7C5, 0xA7C5, 1, 0x0282), (0xA7C6, 0xA7C6, 1, 0x1D8E), (0xA7C7, 0xA7C9, 2, 0xA7C8),
   (0xA7D0, 0xA7D0, 1, 0xA7D1), (0xA7D6, 0xA7D8, 2, 0xA7D7), (0xA7F5, 0xA7F5, 1, 0xA7F6),
   (0xFF21, 0xFF3A, 1, 0xFF41), (0x10400, 0x10427, 1, 0x10428), (0x104B0, 0x104D3, 1, 0x104D8),
   (0x10570, 0x1057A, 1, 0x10597), (0x1057C, 0x1058A, 1, 0x105A3),
   (0x1058C, 0x10592, 1, 0x105B3), (0x10594, 0x10595, 1, 0x105BB),
   (0x10C80, 0x10CB2, 1, 0x10CC0), (0x118A0, 0x118BF, 1, 0x118C0),
   (0x16E40, 0x16E5F, 1, 0x16E60), (0x1E900, 0x1E921, 1, 0x1E922)]

/-- Whether a character number lies in a range of `lowerCaseRanges`. -/
def inCaseRange (r : Nat × Nat × Nat × Nat) (n : Nat) : Bool :=
  decide (r.1 ≤ n) && decide (n ≤ r.2.1) && (n - r.1) % r.2.2.1 == 0

/-- The range of `lowerCaseRanges` a character number lies in. -/
def lowerCaseRangeOf (n : Nat) : Option (Nat × Nat × Nat × Nat) :=
  lowerCaseRanges.find? (fun r => inCaseRange r n)

/-- The function `unicode.ToLower`: the letters A to Z of ASCII directly,
the other characters through the table. -/
def unicodeToLower (c : Char) : Char :=
  if c.toNat ≤ 0x7F then
    if 0x41 ≤ c.toNat ∧ c.toNat ≤ 0x5A then Char.ofNat (c.toNat + 32) else c
  else
    match lowerCaseRangeOf c.toNat with
    | some r => Char.ofNat (r.2.2.2 + (c.toNat - r.1))
    | none => c

/-- The table `unicode.Upper` (general category Lu) of Unicode 14.0: the
characters from the first number to the second, in steps of the third. -/
def upperCaseRanges : List (Nat × Nat × Nat) :=
  [(0x0041, 0x005A, 1), (0x00C0, 0x00D6, 1), (0x00D8, 0x00DE, 1), (0x0100, 0x0136, 2),
   (0x0139, 0x0147, 2), (0x014A, 0x0178, 2), (0x0179, 0x017D, 2), (0x0181, 0x0182, 1),
   (0x0184, 0x0186, 2), (0x0187, 0x0189, 2), (0x018A, 0x018B, 1), (0x018E, 0x0191, 1),
   (0x0193, 0x0194, 1), (0x0196, 0x0198, 1), (0x019C, 0x019D, 1), (0x019F, 0x01A0, 1),
   (0x01A2, 0x01A6, 2), (0x01A7, 0x01A9, 2), (0x01AC, 0x01AE, 2), (0x01AF, 0x01B1, 2),
   (0x01B2, 0x01B3, 1), (0x01B5, 0x01B7, 2), (0x01B8, 0x01B8, 1), (0x01BC, 0x01BC, 1),
   (0x01C4, 0x01C4, 1), (0x01C7, 0x01C7, 1), (0x01CA, 0x01CA, 1), (0x01CD, 0x01DB, 2),
   (0x01DE, 0x01EE, 2), (0x01F1, 0x01F1, 1), (0x01F4, 0x01F6, 2), (0x01F7, 0x01F8, 1),
   (0x01FA, 0x0232, 2), (0x023A, 0x023B, 1), (0x023D, 0x023E, 1), (0x0241, 0x0243, 2),
   (0x0244, 0x0246, 1), (0x0248, 0x024E, 2), (0x0370, 0x0372, 2), (0x0376, 0x0376, 1),
   (0x037F, 0x037F, 1), (0x0386, 0x0388, 2), (0x0389, 0x038A, 1), (0x038C, 0x038E, 2),
   (0x038F, 0x0391, 2), (0x0392, 0x03A1, 1), (0x03A3, 0x03AB, 1), (0x03CF, 0x03CF, 1),
   (0x03D2, 0x03D4, 1), (0x03D8, 0x03EE, 2), (0x03F4, 0x03F4, 1), (0x03F7, 0x03F9, 2),
   (0x03FA, 0x03FA, 1), (0x03FD, 0x042F, 1), (0x0460, 0x0480, 2), (0x048A, 0x04C0, 2),
   (0x04C1, 0x04CD, 2), (0x04D0, 0x052E, 2), (0x0531, 0x0556, 1), (0x10A0, 0x10C5, 1),
   (0x10C7, 0x10C7, 1), (0x10CD, 0x10CD, 1), (0x13A0, 0x13F5, 1), (0x1C90, 0x1CBA, 1),
   (0x1CBD, 0x1CBF, 1), (0x1E00, 0x1E94, 2), (0x1E9E, 0x1EFE, 2), (0x1F08, 0x1F0F, 1),
   (0x1F18, 0x1F1D, 1), (0x1F28, 0x1F2F, 1), (0x1F38, 0x1F3F, 1), (0x1F48, 0x1F4D, 1),
   (0x1F59, 0x1F5F, 2), (0x1F68, 0x1F6F, 1), (0x1FB8, 0x1FBB, 1), (0x1FC8, 0x1FCB, 1),
   (0x1FD8, 0x1FDB, 1), (0x1FE8, 0x1FEC, 1), (0x1FF8, 0x1FFB, 1), (0x2102, 0x2102, 1),
   (0x2107, 0x2107, 1), (0x210B, 0x210D, 1), (0x2110, 0x2112, 1), (0x2115, 0x2115, 1),
   (0x2119, 0x211D, 1), (0x2124, 0x212A, 2), (0x212B, 0x212D, 1), (0x2130, 0x2133, 1),
   (0x213E, 0x213F, 1), (0x2145, 0x2145, 1), (0x2183, 0x2183, 1), (0x2C00, 0x2C2F, 1),
   (0x2C60, 0x2C62, 2), (0x2C63, 0x2C64, 1), (0x2C67, 0x2C6D, 2), (0x2C6E, 0x2C70, 1),
   (0x2C72, 0x2C72, 1), (0x2C75, 0x2C75, 1), (0x2C7E, 0x2C80, 1), (0x2C82, 0x2CE2, 2),
   (0x2CEB, 0x2CED, 2), (0x2CF2, 0x2CF2, 1), (0xA640, 0xA66C, 2), (0xA680, 0xA69A, 2),
   (0xA722, 0xA72E, 2), (0xA732, 0xA76E, 2), (0xA779, 0xA77D, 2), (0xA77E, 0xA786, 2),
   (0xA78B, 0xA78D, 2), (0xA790, 0xA792, 2), (0xA796, 0xA7AA, 2), (0xA7AB, 0xA7AE, 1),
   (0xA7B0, 0xA7B4, 1), (0xA7B6, 0xA7C4, 2), (0xA7C5, 0xA7C7, 1), (0xA7C9, 0xA7C9, 1),
   (0xA7D0, 0xA7D0, 1), (0xA7D6, 0xA7D8, 2), (0xA7F5, 0xA7F5, 1), (0xFF21, 0xFF3A, 1),
   (0x10400, 0x10427, 1), (0x104B0, 0x104D3, 1), (0x10570, 0x1057A, 1), (0x1057C, 0x1058A, 1),
   (0x1058C, 0x10592, 1), (0x10594, 0x10595, 1), (0x10C80, 0x10CB2, 1), (0x118A0, 0x118BF, 1),
   (0x16E40, 0x16E5F, 1), (0x1D400, 0x1D419, 1), (0x1D434, 0x1D44D, 1), (0x1D468, 0x1D481, 1),
   (0x1D49C, 0x1D49E, 2), (0x1D49F, 0x1D49F, 1), (0x1D4A2, 0x1D4A2, 1), (0x1D4A5, 0x1D4A6, 1),
   (0x1D4A9, 0x1D4AC, 1), (0x1D4AE, 0x1D4B5, 1), (0x1D4D0, 0x1D4E9, 1), (0x1D504, 0x1D505, 1),
   (0x1D507, 0x1D50A, 1), (0x1D50D, 0x1D514, 1), (0x1D516, 0x1D51C, 1), (0x1D538, 0x1D539, 1),
   (0x1D53B, 0x1D53E, 1), (0x1D540, 0x1D544, 1), (0x1D546, 0x1D546, 1), (0x1D54A, 0x1D550, 1),
   (0x1D56C, 0x1D585, 1), (0x1D5A0, 0x1D5B9, 1), (0x1D5D4, 0x1D5ED, 1), (0x1D608, 0x1D621, 1),
   (0x1D63C, 0x1D655, 1), (0x1D670, 0x1D689, 1), (0x1D6A8, 0x1D6C0, 1), (0x1D6E2, 0x1D6FA, 1),
   (0x1D71C, 0x1D734, 1), (0x1D756, 0x1D76E, 1), (0x1D790, 0x1D7A8, 1), (0x1D7CA, 0x1D7CA, 1),
   (0x1E900, 0x1E921, 1)]

/-- The predicate `unicode.IsUpper`. -/
def unicodeIsUpper (c : Char) : Bool :=
  upperCaseRanges.any (fun r =>
    decide (r.1 ≤ c.toNat) && decide (c.toNat ≤ r.2.1) && (c.toNat - r.1) % r.2.2 == 0)

/-- No lower-case form of the range `r` lies in the range `r1`: the two
intervals are apart, or every lower-case form is checked. -/
def caseRangesApart (r r1 : Nat × Nat × Nat × Nat) : Bool :=
  decide (r.2.2.2 + (r.2.1 - r.1) < r1.1) || decide (r1.2.1 < r.2.2.2) ||
    (List.range ((r.2.1 - r.1) / r.2.2.1 + 1)).all
      (fun j => !inCaseRange r1 (r.2.2.2 + j * r.2.2.1))

/-- The lower-case forms of a range are characters, none of them a hyphen or a
letter from A to Z, and none of them has a lower-case form of its own. -/
def caseRangeClosed (r : Nat × Nat × Nat × Nat) : Bool :=
  (decide (r.2.2.2 + (r.2.1 - r.1) < 0xD800) ||
    (decide (0xDFFF < r.2.2.2) && decide (r.2.2.2 + (r.2.1 - r.1) < 0x110000))) &&
  (decide (0x5A < r.2.2.2) || decide (r.2.2.2 + (r.2.1 - r.1) < 0x2D)) &&
  lowerCaseRanges.all (fun r1 => caseRangesApart r r1)

/-- The function `strings.ToLower`: `unicode.ToLower` on every character. -/
def toLower (s : GoString) : GoString :=
  s.map unicodeToLower

/-- Source: `canonize`, main.go line 165. -/
def canonize (uuid : GoString) : GoString :=
  toLower (removeHyphens uuid)

/-! ## Go maps and sets -/

/-- A `map[string]string`: pairs with distinct keys. -/
abbrev GoMap := List (GoString × GoString)

/-- A `map[string]struct{}`: distinct keys. -/
abbrev GoSet := List GoString

/-- The expression `m[k]`: the value stored under `k`, the empty string when
the key is absent. -/
def GoMap.get (m : GoMap) (k : GoString) : GoString :=
  (m.lookup k).getD []

/-- The assignment `m[k] = v`. -/
def GoMap.set (m : GoMap) (k v : GoString) : GoMap :=
  if m.any (fun p => p.1 == k) then
    m.map (fun p => if p.1 == k then (k, v) else p)
  else
    m ++ [(k, v)]

/-- The assignment `s[k] = struct{}{}`. -/
def GoSet.add (s : GoSet) (k : GoString) : GoSet :=
  if k ∈ s then s else s ++ [k]

/-- The statement `delete(s, k)`. -/
def GoSet.delete : GoSet → GoString → GoSet
  | [], _ => []
  | x :: xs, k => if x = k then xs else x :: GoSet.delete xs k

/-- The keys of a map. -/
def GoMap.keys (m : GoMap) : List GoString :=
  m.map Prod.fst

/-! ## Errors -/

/-- An error of the operating system or of an external tool; the payload is
its text. -/
structure ExtError where
  text : GoString
  deriving DecidableEq, Repr

/-- The errors `process` can return, one constructor per place of the source
that creates one. -/
inductive HookError where
  /-- Line 237: the index set is empty. -/
  | noEnvironment
  /-- Line 241: index set, region map and afu map differ in size. -/
  | environmentIncorrect
  /-- Line 245: the device set and the index set differ in size. -/
  | devicesMismatch
  /-- Line 273: no device has the interface identity. -/
  | noDevice (interfaceID : GoString)
  /-- Lines 308 and 319: a hardware-reported file could not be read. -/
  | readFailed (path : GoString) (cause : ExtError)
  /-- Line 290: `os.Stat` failed with an error other than not-found. -/
  | statFailed (path : GoString) (cause : ExtError)
  /-- Line 299: no bitstream file exists. -/
  | bitstreamNotFound (region afu : GoString)
  /-- Line 87: the inspection tool failed. -/
  | gbsInfoFailed (region afu : GoString) (cause : ExtError)
  /-- Line 93: the output of the inspection tool is not a JSON document. -/
  | gbsInfoUndecodable (region afu : GoString) (cause : ExtError)
  /-- Lines 98, 103, 108 and 117: a field is missing in the tool output. -/
  | fieldNotFound (region afu field : GoString)
  /-- Line 112: the interface identity of the image differs. -/
  | regionMismatch (region : GoString) (interfaceUUID : GoString)
  /-- Line 121: the function identity of the image differs. -/
  | afuMismatch (afu : GoString) (acceleratorTypeUUID : GoString)
  /-- Lines 130 and 149: the programming tool failed. -/
  | programFailed (afu devNum region output : GoString) (cause : ExtError)
  /-- Line 383: the device reports another function after programming. -/
  | programmedOther (programmedAfu afu : GoString)
  /-- Line 327: the request is not a JSON document. -/
  | requestUndecodable (cause : ExtError)
  /-- Line 333. -/
  | noAnnotations
  /-- Line 172. -/
  | noBundle
  /-- Line 178: the bundle configuration could not be opened. -/
  | configUnreadable (path : GoString) (cause : ExtError)
  /-- Line 184. -/
  | configUndecodable (path : GoString) (cause : ExtError)
  /-- Lines 189, 194, 199 and 204: a field is missing in the configuration. -/
  | configFieldNotFound (field path : GoString)
  /-- Line 348: `getFPGAParams` failed. -/
  | paramsFailed (cause : HookError)
  /-- A run-time panic: failed type assertion or index out of range. -/
  | runtimePanic
  deriving DecidableEq, Repr

deriving instance DecidableEq for Except

/-- The result of a fallible function. -/
abbrev Result (α : Type) := Except HookError α

/-- Whether a result is a success. -/
def Result.isOk {α : Type} : Result α → Bool
  | .ok _ => true
  | .error _ => false

/-! ## The world outside the program -/

/-- The outcome of `os.Stat`, as the source tells the cases apart. -/
inductive StatResult where
  /-- The file exists (`err == nil`). -/
  | found
  /-- The error satisfies `os.IsNotExist`. -/
  | notExist
  /-- Any other error. -/
  | failed (cause : ExtError)
  deriving DecidableEq, Repr

/-- The two loops over a map of `produceFPGAParams`. -/
inductive RangeLoop where
  /-- Line 249: `for bitstreamNum := range envSet`. -/
  | bitstreams
  /-- Line 253: `for devNum := range devSet`. -/
  | devices
  deriving DecidableEq, Repr

/-- A decoded JSON value, as `encoding/json` stores it in an `interface{}`. -/
inductive JSON where
  | null
  | bool (b : Bool)
  | number (literal : GoString)
  | string (s : GoString)
  | array (items : List JSON)
  | object (fields : List (GoString × JSON))

/-- A decoded JSON document: `map[string]interface{}`. -/
abbrev JSONMap := List (GoString × JSON)

/-- The world the hook runs in, over a state `σ` of the machine: files,
hardware-reported files, external commands (`utilsexec.Interface`), the JSON
decoder and the visiting order of `range` over a map. -/
structure World (σ : Type) where
  /-- The function `ioutil.ReadFile`. -/
  readFile : σ → GoString → Except ExtError GoString
  /-- The function `os.Stat`. -/
  stat : σ → GoString → StatResult
  /-- The call `execer.Command(cmd, args...).CombinedOutput()`: the output,
  the error if any, and the state the command leaves. -/
  combinedOutput : σ → GoString → List GoString → (GoString × Option ExtError) × σ
  /-- The function `decodeJSONStream` on the bytes of a stream. -/
  decodeJSONStream : GoString → Except ExtError JSONMap
  /-- The function `fmt.Sprint` on a decoded value. -/
  sprint : JSON → GoString
  /-- The order in which a `range` loop visits the keys of a map. -/
  rangeOrder : RangeLoop → GoSet → List GoString

/-- A world is lawful when a `range` loop visits every key once. -/
def World.Lawful {σ : Type} (w : World σ) : Prop :=
  ∀ (loop : RangeLoop) (s : GoSet), (w.rangeOrder loop s).Perm s

/-- One interaction of the hook with the world. -/
inductive Event where
  /-- A file was read. -/
  | readFile (path : GoString)
  /-- A file was looked for with `os.Stat`. -/
  | stat (path : GoString)
  /-- An external command was run. -/
  | command (cmd : GoString) (args : List GoString)
  deriving DecidableEq, Repr

/-- Whether an event is the run of an external command. -/
def Event.isCommand : Event → Bool
  | .command _ _ => true
  | _ => false

/-- Whether an event is the run of a programming tool. -/
def Event.isProgram : Event → Bool
  | .command cmd _ => cmd == fpgaconf || cmd == aocl
  | _ => false

/-- Whether an event is a lookup of a bitstream file. -/
def Event.isStat : Event → Bool
  | .stat _ => true
  | _ => false

/-! ## Library functions -/

/-- The predicate `unicode.IsSpace`. -/
def isSpace (c : Char) : Bool :=
  c == '\t' || c == '\n' || c.toNat == 0x0B || c.toNat == 0x0C || c == '\r' || c == ' ' ||
  c.toNat == 0x85 || c.toNat == 0xA0 || c.toNat == 0x1680 ||
  (0x2000 ≤ c.toNat && c.toNat ≤ 0x200A) || c.toNat == 0x2028 || c.toNat == 0x2029 ||
  c.toNat == 0x202F || c.toNat == 0x205F || c.toNat == 0x3000

/-- The function `strings.TrimSpace`. -/
def trimSpace (s : GoString) : GoString :=
  ((s.dropWhile isSpace).reverse.dropWhile isSpace).reverse

/-- The function `fmt.Sprintf` on arguments that are strings, for the verbs
`%s` and `%v` and for `%%`: a verb without an argument prints as
`%!s(MISSING)` or `%!v(MISSING)`, arguments without a verb are listed after
`%!(EXTRA `. -/
def sprintf : GoString → List GoString → GoString
  | '%' :: '%' :: rest, args => '%' :: sprintf rest args
  | '%' :: 's' :: rest, a :: args => a ++ sprintf rest args
  | '%' :: 'v' :: rest, a :: args => a ++ sprintf rest args
  | '%' :: 's' :: rest, [] => "%!s(MISSING)".toList ++ sprintf rest []
  | '%' :: 'v' :: rest, [] => "%!v(MISSING)".toList ++ sprintf rest []
  | c :: rest, args => c :: sprintf rest args
  | [], [] => []
  | [], a :: args =>
    "%!(EXTRA ".toList ++
      ", ".toList.intercalate ((a :: args).map (fun arg => "string=".toList ++ arg)) ++
      ")".toList

/-- The pieces of a path between its slashes. -/
def splitSlash : GoString → List GoString
  | [] => [[]]
  | c :: cs =>
    match splitSlash cs with
    | [] => [[c]]
    | piece :: pieces =>
      if c = '/' then [] :: piece :: pieces else (c :: piece) :: pieces

/-- The loop of `filepath.Clean` over the elements of a path, with the
elements kept so far, the last one first: empty elements and `.` are
dropped, `..` removes the element before it, is dropped at the root, and is
kept at the start of a path that is not rooted. -/
def cleanElements (rooted : Bool) : List GoString → List GoString → List GoString
  | [], kept => kept.reverse
  | elem :: rest, kept =>
    if elem = [] ∨ elem = ".".toList then
      cleanElements rooted rest kept
    else if elem = "..".toList then
      match kept with
      | top :: below =>
        if top = "..".toList then cleanElements rooted rest (elem :: kept)
        else cleanElements rooted rest below
      | [] =>
        if rooted then cleanElements rooted rest []
        else cleanElements rooted rest [elem]
    else
      cleanElements rooted rest (elem :: kept)

/-- The function `filepath.Clean`, for the separator `/`. -/
def filepathClean (path : GoString) : GoString :=
  let rooted := path.head? = some '/'
  let out := (if rooted then "/".toList else []) ++
    "/".toList.intercalate (cleanElements rooted (splitSlash path) [])
  if out = [] then ".".toList else out

/-- The function `filepath.Join`: the elements from the first non-empty one
on, separated by a slash, and cleaned; the empty string when every element
is empty. -/
def filepathJoin (elems : List GoString) : GoString :=
  match elems.dropWhile (fun e => e.isEmpty) with
  | [] => []
  | kept => filepathClean ("/".toList.intercalate kept)

/-- The function `strings.HasPrefix`. -/
def hasPrefix (s pre : GoString) : Bool :=
  pre.isPrefixOf s

/-- The text before and after the first occurrence of the separator, `none`
when the separator does not occur. -/
def cut (sep : Char) : GoString → Option (GoString × GoString)
  | [] => none
  | c :: cs =>
    if c = sep then some ([], cs)
    else match cut sep cs with
      | none => none
      | some (before, after) => some (c :: before, after)

/-- The function `strings.SplitN` for a separator of one character: at most
`n` pieces, the last one the unsplit remainder. -/
def splitN (sep : Char) : Nat → GoString → List GoString
  | 0, _ => []
  | 1, s => [s]
  | n + 2, s =>
    match cut sep s with
    | none => [s]
    | some (before, after) => before :: splitN sep (n + 1) after

/-- The regular expression `fpgaDevRegexp`, main.go line 40, as
`FindStringSubmatch` applies it: the text has to end with
`/dev/intel-fpga-port`, one character other than a newline, and one decimal
digit; the result is the submatch, that digit. -/
def fpgaDevREFind (path : GoString) : Option GoString :=
  let tail := path.drop (path.length - 22)
  match tail.drop 20 with
  | [c, d] =>
    if 22 ≤ path.length ∧ tail.take 20 = "/dev/intel-fpga-port".toList ∧ c ≠ '\n' ∧
        d.isDigit = true then
      some [d]
    else
      none
  | _ => none

/-! ## Data of the hook -/

/-- Source: `hookEnv`, main.go line 58; the field `execer` is the world. -/
structure hookEnv where
  bitStreamDir : GoString
  config : GoString
  afuIDTemplate : GoString
  interfaceIDTemplate : GoString
  deriving DecidableEq, Repr

/-- Source: `newHookEnv`, main.go line 155. -/
def newHookEnv (bitStreamDir config afuIDTemplate interfaceIDTemplate : GoString) : hookEnv :=
  { bitStreamDir := bitStreamDir, config := config,
    afuIDTemplate := afuIDTemplate, interfaceIDTemplate := interfaceIDTemplate }

/-- Source: `fpgaParams`, main.go line 66. -/
structure fpgaParams where
  region : GoString
  afu : GoString
  devNum : GoString
  deriving DecidableEq, Repr

/-- Source: `opaeBitStream`, main.go line 77. -/
structure opaeBitStream where
  path : GoString
  params : fpgaParams
  deriving DecidableEq, Repr

/-- Source: `openCLBitStream`, main.go line 136. -/
structure openCLBitStream where
  path : GoString
  params : fpgaParams
  deriving DecidableEq, Repr

/-- Source: the interface `fpgaBitStream`, main.go line 72, with its two
implementations. -/
inductive fpgaBitStream where
  | opae (bitStream : opaeBitStream)
  | openCL (bitStream : openCLBitStream)
  deriving DecidableEq, Repr

/-! ## Hardware-reported files -/

/-- Source: `hookEnv.getProgrammedAfu`, main.go line 302. -/
def getProgrammedAfu {σ : Type} (he : hookEnv) (w : World σ) (s : σ) (deviceNum : GoString) :
    Result GoString × List Event :=
  let afuIDPath := sprintf he.afuIDTemplate [deviceNum, deviceNum]
  match w.readFile s afuIDPath with
  | .error err => (.error (.readFailed afuIDPath err), [.readFile afuIDPath])
  | .ok data => (.ok (trimSpace data), [.readFile afuIDPath])

/-- Source: `hookEnv.getInterfaceID`, main.go line 313. -/
def getInterfaceID {σ : Type} (he : hookEnv) (w : World σ) (s : σ) (deviceNum : GoString) :
    Result GoString × List Event :=
  let interfaceIDPath := sprintf he.interfaceIDTemplate [deviceNum, deviceNum]
  match w.readFile s interfaceIDPath with
  | .error err => (.error (.readFailed interfaceIDPath err), [.readFile interfaceIDPath])
  | .ok data => (.ok (trimSpace data), [.readFile interfaceIDPath])

/-! ## The resolver -/

/-- The inner loop of `produceFPGAParams`, lines 253 to 271, over the devices
in the order they are visited: the first device whose interface identity,
normalized, is `interfaceID`; `none` when the loop ends with `found` false. -/
def findDevice {σ : Type} (he : hookEnv) (w : World σ) (s : σ) (interfaceID : GoString) :
    List GoString → Result (Option GoString) × List Event
  | [] => (.ok none, [])
  | devNum :: rest =>
    match getInterfaceID he w s devNum with
    | (.error err, evs) => (.error err, evs)
    | (.ok iID, evs) =>
      if interfaceID = canonize iID then
        (.ok (some devNum), evs)
      else
        let r := findDevice he w s interfaceID rest
        (r.1, evs ++ r.2)

/-- The outer loop of `produceFPGAParams`, lines 249 to 275, over the indices
still to visit, with the devices left and the requests emitted so far. -/
def produceLoop {σ : Type} (he : hookEnv) (w : World σ) (s : σ) (regionEnv afuEnv : GoMap) :
    List GoString → GoSet → List fpgaParams → Result (List fpgaParams) × List Event
  | [], _, params => (.ok params, [])
  | bitstreamNum :: rest, devSet, params =>
    let interfaceID := canonize (regionEnv.get (fpgaRegionEnvPrefix ++ bitstreamNum))
    match findDevice he w s interfaceID (w.rangeOrder .devices devSet) with
    | (.error err, evs) => (.error err, evs)
    | (.ok none, evs) => (.error (.noDevice interfaceID), evs)
    | (.ok (some devNum), evs) =>
      let r := produceLoop he w s regionEnv afuEnv rest (devSet.delete devNum)
        (params ++ [{ afu := canonize (afuEnv.get (fpgaAfuEnvPrefix ++ bitstreamNum)),
                      region := interfaceID,
                      devNum := devNum }])
      (r.1, evs ++ r.2)

/-- Source: `hookEnv.produceFPGAParams`, main.go line 235. -/
def produceFPGAParams {σ : Type} (he : hookEnv) (w : World σ) (s : σ)
    (regionEnv afuEnv : GoMap) (envSet devSet : GoSet) :
    Result (List fpgaParams) × List Event :=
  if envSet.length = 0 then
    (.error .noEnvironment, [])
  else if envSet.length ≠ regionEnv.length ∨ envSet.length ≠ afuEnv.length then
    (.error .environmentIncorrect, [])
  else if devSet.length ≠ envSet.length then
    (.error .devicesMismatch, [])
  else
    produceLoop he w s regionEnv afuEnv (w.rangeOrder .bitstreams envSet) devSet []

/-- The maps the loop over the environment fills, lines 207 to 209. -/
structure EnvMaps where
  regionEnv : GoMap
  afuEnv : GoMap
  envSet : GoSet
  deriving DecidableEq, Repr

/-- The body of the loop over the environment for one declaration,
lines 211 to 220. -/
def partitionEnvStep (maps : EnvMaps) (env : GoString) : Result EnvMaps :=
  let splitted := splitN '=' 2 env
  match splitted[0]? with
  | none => .error .runtimePanic
  | some key =>
    if hasPrefix key fpgaRegionEnvPrefix then
      match splitted[1]? with
      | none => .error .runtimePanic
      | some value =>
        let underscoreSplitted := splitN '_' 3 key
        match underscoreSplitted[2]? with
        | none => .error .runtimePanic
        | some idx =>
          .ok { maps with regionEnv := maps.regionEnv.set key value,
                          envSet := maps.envSet.add idx }
    else if hasPrefix key fpgaAfuEnvPrefix then
      match splitted[1]? with
      | none => .error .runtimePanic
      | some value =>
        let underscoreSplitted := splitN '_' 3 key
        match underscoreSplitted[2]? with
        | none => .error .runtimePanic
        | some idx =>
          .ok { maps with afuEnv := maps.afuEnv.set key value,
                          envSet := maps.envSet.add idx }
    else
      .ok maps

/-- The loop over the environment of `getFPGAParams`, lines 210 to 221, on
declarations that are strings. -/
def partitionEnvLoop : EnvMaps → List GoString → Result EnvMaps
  | maps, [] => .ok maps
  | maps, env :: rest =>
    match partitionEnvStep maps env with
    | .error err => .error err
    | .ok maps1 => partitionEnvLoop maps1 rest

/-- The partition step of `getFPGAParams`, lines 207 to 221: the region map,
the afu map and the index set of a list of declarations. -/
def partitionEnv (envs : List GoString) : Result EnvMaps :=
  partitionEnvLoop { regionEnv := [], afuEnv := [], envSet := [] } envs

/-- The type assertions `env.(string)` of line 211, for every entry of
`rawEnv`. -/
def envStrings : List JSON → Result (List GoString)
  | [] => .ok []
  | .string env :: rest =>
    match envStrings rest with
    | .error err => .error err
    | .ok envs => .ok (env :: envs)
  | _ :: _ => .error .runtimePanic

/-- The loop over the attached devices of `getFPGAParams`, lines 223 to 229. -/
def deviceSetLoop : GoSet → List JSON → Result GoSet
  | devSet, [] => .ok devSet
  | devSet, device :: rest =>
    match device with
    | .object deviceFields =>
      match deviceFields.lookup "path".toList with
      | some (.string path) =>
        match fpgaDevREFind path with
        | some deviceNum => deviceSetLoop (devSet.add deviceNum) rest
        | none => deviceSetLoop devSet rest
      | _ => .error .runtimePanic
    | _ => .error .runtimePanic

/-- The partition step followed by `produceFPGAParams`, lines 207 to 221 and
line 231, for a device set that is built already. -/
def resolveEnv {σ : Type} (he : hookEnv) (w : World σ) (s : σ)
    (envs : List GoString) (devSet : GoSet) : Result (List fpgaParams) × List Event :=
  match partitionEnv envs with
  | .error err => (.error err, [])
  | .ok maps => produceFPGAParams he w s maps.regionEnv maps.afuEnv maps.envSet devSet

/-- Source: `hookEnv.getFPGAParams`, main.go line 169.  The bundle
configuration is read from the path `configPath`. -/
def getFPGAParams {σ : Type} (he : hookEnv) (w : World σ) (s : σ) (content : JSONMap) :
    Result (List fpgaParams) × List Event :=
  match content.lookup "bundle".toList with
  | none => (.error .noBundle, [])
  | some bundle =>
    let configPath := filepathJoin [w.sprint bundle, he.config]
    match w.readFile s configPath with
    | .error err => (.error (.configUnreadable configPath err), [.readFile configPath])
    | .ok configFile =>
      match w.decodeJSONStream configFile with
      | .error err => (.error (.configUndecodable configPath err), [.readFile configPath])
      | .ok content =>
        match content.lookup "process".toList with
        | none =>
          (.error (.configFieldNotFound "process".toList configPath), [.readFile configPath])
        | some (.object processFields) =>
          match processFields.lookup "env".toList with
          | none =>
            (.error (.configFieldNotFound "env".toList configPath), [.readFile configPath])
          | some rawEnv =>
            match content.lookup "linux".toList with
            | none =>
              (.error (.configFieldNotFound "linux".toList configPath), [.readFile configPath])
            | some (.object linuxFields) =>
              match linuxFields.lookup "devices".toList with
              | none =>
                (.error (.configFieldNotFound "devices".toList configPath),
                  [.readFile configPath])
              | some rawDevices =>
                match rawEnv with
                | .array rawEnvItems =>
                  match envStrings rawEnvItems with
                  | .error err => (.error err, [.readFile configPath])
                  | .ok envs =>
                    match partitionEnv envs with
                    | .error err => (.error err, [.readFile configPath])
                    | .ok maps =>
                      match rawDevices with
                      | .array rawDeviceItems =>
                        match deviceSetLoop [] rawDeviceItems with
                        | .error err => (.error err, [.readFile configPath])
                        | .ok devSet =>
                          let r := produceFPGAParams he w s maps.regionEnv maps.afuEnv
                            maps.envSet devSet
                          (r.1, .readFile configPath :: r.2)
                      | _ => (.error .runtimePanic, [.readFile configPath])
                | _ => (.error .runtimePanic, [.readFile configPath])
            | some _ => (.error .runtimePanic, [.readFile configPath])
        | some _ => (.error .runtimePanic, [.readFile configPath])

/-- The expression `canonize(regionEnv[fpgaRegionEnvPrefix+bitstreamNum])` of
line 250: the normalized region declared under an index. -/
def declaredRegion (regionEnv : GoMap) (bitstreamNum : GoString) : GoString :=
  canonize (regionEnv.get (fpgaRegionEnvPrefix ++ bitstreamNum))

/-- The expression `canonize(afuEnv[fpgaAfuEnvPrefix+bitstreamNum])` of
line 262: the normalized function declared under an index. -/
def declaredAfu (afuEnv : GoMap) (bitstreamNum : GoString) : GoString :=
  canonize (afuEnv.get (fpgaAfuEnvPrefix ++ bitstreamNum))

/-- What `produceFPGAParams` binds: the request `params` is the one of the
index `bitstreamNum`, for a device whose interface identity is its region. -/
def Binds {σ : Type} (he : hookEnv) (w : World σ) (s : σ) (regionEnv afuEnv : GoMap)
    (bitstreamNum : GoString) (params : fpgaParams) : Prop :=
  params.region = declaredRegion regionEnv bitstreamNum ∧
  params.afu = declaredAfu afuEnv bitstreamNum ∧
  ∃ iID, (getInterfaceID he w s params.devNum).1 = .ok iID ∧ params.region = canonize iID

/-- The interface identity the hardware reports for a device, the empty
string when its file cannot be read. -/
def interfaceIDOf {σ : Type} (he : hookEnv) (w : World σ) (s : σ) (devNum : GoString) :
    GoString :=
  match (getInterfaceID he w s devNum).1 with
  | .ok iID => iID
  | .error _ => []

/-- Every device of the set reports an interface identity. -/
def Readable {σ : Type} (he : hookEnv) (w : World σ) (s : σ) (devSet : GoSet) : Prop :=
  ∀ d ∈ devSet, ∃ iID, (getInterfaceID he w s d).1 = .ok iID

/-- The count checks of `produceFPGAParams`, lines 236 to 246, pass. -/
def CountsPass (regionEnv afuEnv : GoMap) (envSet devSet : GoSet) : Prop :=
  envSet.length ≠ 0 ∧ envSet.length = regionEnv.length ∧ envSet.length = afuEnv.length ∧
    devSet.length = envSet.length

/-- The region declared under each index normalizes to the normalized
interface identity of exactly one device of the set. -/
def MatchesOneDevice {σ : Type} (he : hookEnv) (w : World σ) (s : σ) (regionEnv : GoMap)
    (envSet devSet : GoSet) : Prop :=
  ∀ b ∈ envSet, ∃! d, d ∈ devSet ∧
    canonize (interfaceIDOf he w s d) = declaredRegion regionEnv b

/-- The key of a declaration `KEY=VALUE`: the text before the first equals
sign. -/
def envKey (env : GoString) : GoString :=
  env.takeWhile (fun c => c != '=')

/-- The indices that appear in the declarations `FPGA_REGION_<idx>` of an
environment. -/
def regionIndices (envs : List GoString) : List GoString :=
  envs.filterMap (fun env =>
    if hasPrefix (envKey env) fpgaRegionEnvPrefix then
      some ((envKey env).drop fpgaRegionEnvPrefix.length)
    else none)

/-- The indices that appear in the declarations `FPGA_AFU_<idx>` of an
environment. -/
def afuIndices (envs : List GoString) : List GoString :=
  envs.filterMap (fun env =>
    if hasPrefix (envKey env) fpgaAfuEnvPrefix then
      some ((envKey env).drop fpgaAfuEnvPrefix.length)
    else none)

/-- The invariant of the loop over the environment: the keys of the two maps
are the declarations of the indices in `rs` and `as`, and the index set holds
the indices of both. -/
def PartitionInv (maps : EnvMaps) (rs as : List GoString) : Prop :=
  maps.envSet.Nodup ∧ maps.regionEnv.keys.Nodup ∧ maps.afuEnv.keys.Nodup ∧
  (∀ k, k ∈ maps.regionEnv.keys ↔ ∃ i ∈ rs, k = fpgaRegionEnvPrefix ++ i) ∧
  (∀ k, k ∈ maps.afuEnv.keys ↔ ∃ i ∈ as, k = fpgaAfuEnvPrefix ++ i) ∧
  (∀ i, i ∈ maps.envSet ↔ i ∈ rs ∨ i ∈ as)

/-! ## Bitstreams -/

/-- The checks of `opaeBitStream.validate` on the decoded output of the
inspection tool, lines 96 to 124.  A type assertion on a value of another
type, and the index 0 of an empty list, panic. -/
def checkGbsInfo (region afu : GoString) (content : JSONMap) : Result Unit :=
  match content.lookup "afu-image".toList with
  | none => .error (.fieldNotFound region afu "afu-image".toList)
  | some afuImage =>
    match afuImage with
    | .object afuImageFields =>
      match afuImageFields.lookup "interface-uuid".toList with
      | none => .error (.fieldNotFound region afu "interface-uuid".toList)
      | some interfaceUUID =>
        match afuImageFields.lookup "accelerator-clusters".toList with
        | none => .error (.fieldNotFound region afu "accelerator-clusters".toList)
        | some acceleratorClusters =>
          match interfaceUUID with
          | .string interfaceUUIDString =>
            if canonize interfaceUUIDString ≠ region then
              .error (.regionMismatch region interfaceUUIDString)
            else
              match acceleratorClusters with
              | .array (.object firstCluster :: _) =>
                match firstCluster.lookup "accelerator-type-uuid".toList with
                | none => .error (.fieldNotFound region afu "accelerator-type-uuid".toList)
                | some acceleratorTypeUUID =>
                  match acceleratorTypeUUID with
                  | .string acceleratorTypeUUIDString =>
                    if canonize acceleratorTypeUUIDString ≠ afu then
                      .error (.afuMismatch afu acceleratorTypeUUIDString)
                    else
                      .ok ()
                  | _ => .error .runtimePanic
              | _ => .error .runtimePanic
          | _ => .error .runtimePanic
    | _ => .error .runtimePanic

/-- Source: `opaeBitStream.validate`, main.go line 83. -/
def opaeBitStream.validate {σ : Type} (w : World σ) (s : σ) (bitStream : opaeBitStream) :
    Result Unit × σ × List Event :=
  let region := bitStream.params.region
  let afu := bitStream.params.afu
  let args := ["gbs-info".toList, "--gbs".toList, bitStream.path]
  match w.combinedOutput s packager args with
  | ((_, some err), s1) => (.error (.gbsInfoFailed region afu err), s1, [.command packager args])
  | ((output, none), s1) =>
    match w.decodeJSONStream output with
    | .error err => (.error (.gbsInfoUndecodable region afu err), s1, [.command packager args])
    | .ok content => (checkGbsInfo region afu content, s1, [.command packager args])

/-- Source: `opaeBitStream.program`, main.go line 127. -/
def opaeBitStream.program {σ : Type} (w : World σ) (s : σ) (bitStream : opaeBitStream) :
    Result Unit × σ × List Event :=
  let args := ["-s".toList, bitStream.params.devNum, bitStream.path]
  match w.combinedOutput s fpgaconf args with
  | ((output, some err), s1) =>
    (.error (.programFailed bitStream.params.afu bitStream.params.devNum
      bitStream.params.region output err), s1, [.command fpgaconf args])
  | ((_, none), s1) => (.ok (), s1, [.command fpgaconf args])

/-- Source: `openCLBitStream.validate`, main.go line 142. -/
def openCLBitStream.validate {σ : Type} (_w : World σ) (s : σ) (_bitStream : openCLBitStream) :
    Result Unit × σ × List Event :=
  (.ok (), s, [])

/-- Source: `openCLBitStream.program`, main.go line 146. -/
def openCLBitStream.program {σ : Type} (w : World σ) (s : σ) (bitStream : openCLBitStream) :
    Result Unit × σ × List Event :=
  let args := ["program".toList, "acl".toList ++ bitStream.params.devNum, bitStream.path]
  match w.combinedOutput s aocl args with
  | ((output, some err), s1) =>
    (.error (.programFailed bitStream.params.afu bitStream.params.devNum
      bitStream.params.region output err), s1, [.command aocl args])
  | ((_, none), s1) => (.ok (), s1, [.command aocl args])

/-- The method `validate` of the interface `fpgaBitStream`. -/
def fpgaBitStream.validate {σ : Type} (w : World σ) (s : σ) :
    fpgaBitStream → Result Unit × σ × List Event
  | .opae bitStream => bitStream.validate w s
  | .openCL bitStream => bitStream.validate w s

/-- The method `program` of the interface `fpgaBitStream`. -/
def fpgaBitStream.program {σ : Type} (w : World σ) (s : σ) :
    fpgaBitStream → Result Unit × σ × List Event
  | .opae bitStream => bitStream.program w s
  | .openCL bitStream => bitStream.program w s

/-- The loop of `getBitStream`, lines 282 to 298, over the extensions still
to try. -/
def getBitStreamLoop {σ : Type} (he : hookEnv) (w : World σ) (s : σ) (params : fpgaParams) :
    List GoString → Result fpgaBitStream × List Event
  | [] => (.error (.bitstreamNotFound params.region params.afu), [])
  | ext :: rest =>
    let bitStreamPath := filepathJoin [he.bitStreamDir, params.region, params.afu ++ ext]
    match w.stat s bitStreamPath with
    | .notExist =>
      let r := getBitStreamLoop he w s params rest
      (r.1, .stat bitStreamPath :: r.2)
    | .failed err => (.error (.statFailed bitStreamPath err), [.stat bitStreamPath])
    | .found =>
      if ext = ".gbs".toList then
        (.ok (.opae { path := bitStreamPath, params := params }), [.stat bitStreamPath])
      else if ext = ".aocx".toList then
        (.ok (.openCL { path := bitStreamPath, params := params }), [.stat bitStreamPath])
      else
        let r := getBitStreamLoop he w s params rest
        (r.1, .stat bitStreamPath :: r.2)

/-- Source: `hookEnv.getBitStream`, main.go line 280. -/
def getBitStream {σ : Type} (he : hookEnv) (w : World σ) (s : σ) (params : fpgaParams) :
    Result fpgaBitStream × List Event :=
  getBitStreamLoop he w s params [".gbs".toList, ".aocx".toList]

/-! ## The orchestrator -/

/-- How the body of the loop of `process` ends for one request: it falls
through to the next request, or `process` returns. -/
inductive Flow where
  /-- The end of the body is reached. -/
  | next
  /-- A `return` statement is run, with its value. -/
  | ret (result : Result Unit)
  deriving DecidableEq, Repr

/-- The body of the loop of `process` for one request, lines 352 to 384. -/
def processRequest {σ : Type} (he : hookEnv) (w : World σ) (s : σ) (params : fpgaParams) :
    Flow × σ × List Event :=
  match getProgrammedAfu he w s params.devNum with
  | (.error err, evs0) => (.ret (.error err), s, evs0)
  | (.ok programmedAfu, evs0) =>
    if canonize programmedAfu = params.afu then
      -- Afu is already programmed
      (.ret (.ok ()), s, evs0)
    else
      match getBitStream he w s params with
      | (.error err, evs1) => (.ret (.error err), s, evs0 ++ evs1)
      | (.ok bitStream, evs1) =>
        match bitStream.validate w s with
        | (.error err, s2, evs2) => (.ret (.error err), s2, evs0 ++ evs1 ++ evs2)
        | (.ok _, s2, evs2) =>
          match bitStream.program w s2 with
          | (.error err, s3, evs3) => (.ret (.error err), s3, evs0 ++ evs1 ++ evs2 ++ evs3)
          | (.ok _, s3, evs3) =>
            match getProgrammedAfu he w s3 params.devNum with
            | (.error err, evs4) =>
              (.ret (.error err), s3, evs0 ++ evs1 ++ evs2 ++ evs3 ++ evs4)
            | (.ok programmedAfu, evs4) =>
              if programmedAfu ≠ params.afu then
                (.ret (.error (.programmedOther programmedAfu params.afu)), s3,
                  evs0 ++ evs1 ++ evs2 ++ evs3 ++ evs4)
              else
                (.next, s3, evs0 ++ evs1 ++ evs2 ++ evs3 ++ evs4)

/-- The loop of `process` over the requests, lines 351 to 385. -/
def processLoop {σ : Type} (he : hookEnv) (w : World σ) :
    σ → List fpgaParams → Flow × σ × List Event
  | s, [] => (.next, s, [])
  | s, params :: rest =>
    match processRequest he w s params with
    | (.next, s1, evs) =>
      let r := processLoop he w s1 rest
      (r.1, r.2.1, evs ++ r.2.2)
    | (.ret result, s1, evs) => (.ret result, s1, evs)

/-- The part of `process` that follows `getFPGAParams`, lines 351 to 387:
the loop over the requests, then `return nil`. -/
def processParams {σ : Type} (he : hookEnv) (w : World σ) (s : σ) (paramslist : List fpgaParams) :
    Result Unit × σ × List Event :=
  match processLoop he w s paramslist with
  | (.next, s1, evs) => (.ok (), s1, evs)
  | (.ret result, s1, evs) => (result, s1, evs)

/-- Source: `hookEnv.process`, main.go line 324, on the bytes of the reader. -/
def process {σ : Type} (he : hookEnv) (w : World σ) (s : σ) (reader : GoString) :
    Result Unit × σ × List Event :=
  match w.decodeJSONStream reader with
  | .error err => (.error (.requestUndecodable err), s, [])
  | .ok content =>
    -- Check if device plugin annotation is set
    match content.lookup "annotations".toList with
    | none => (.error .noAnnotations, s, [])
    | some (.object annotationFields) =>
      match annotationFields.lookup annotationName with
      | none => (.ok (), s, [])
      | some (.string annotation) =>
        if annotation ≠ annotationValue then
          (.ok (), s, [])
        else
          match getFPGAParams he w s content with
          | (.error .runtimePanic, evs) => (.error .runtimePanic, s, evs)
          | (.error err, evs) => (.error (.paramsFailed err), s, evs)
          | (.ok paramslist, evs) =>
            let r := processParams he w s paramslist
            (r.1, r.2.1, evs ++ r.2.2)
      | some _ => (.ok (), s, [])
    | some _ => (.error .runtimePanic, s, [])

/-! ## A small concrete world

The state is the list of the files with their contents.  A bitstream file
holds the interface identity and the function identity of the image,
separated by a slash; the inspection tool prints the file, and the programming
tools write the function identity to the `afu_id` file of the device. -/

/-- The state of the concrete world: paths and contents. -/
abbrev Files := List (GoString × GoString)

/-- The hook environment `main` builds, main.go line 395. -/
def mainEnv : hookEnv :=
  newHookEnv fpgaBitStreamDirectory configJSON afuIDTemplate interfaceIDTemplate

/-- Writing a file. -/
def Files.write (files : Files) (path data : GoString) : Files :=
  (path, data) :: files.filter (fun f => f.1 != path)

/-- A programming tool of the concrete world: the function identity of the
image becomes the content of the `afu_id` file of the device. -/
def demoProgram (files : Files) (devNum path : GoString) : (GoString × Option ExtError) × Files :=
  match files.lookup path with
  | none => (("no image".toList, some { text := "exit status 1".toList }), files)
  | some image =>
    match cut '/' image with
    | none => (("bad image".toList, some { text := "exit status 1".toList }), files)
    | some (_, afuID) =>
      (([], none), Files.write files (sprintf afuIDTemplate [devNum, devNum]) afuID)

/-- The JSON decoder of the concrete world, on the output of the inspection
tool of the concrete world. -/
def demoDecode (output : GoString) : Except ExtError JSONMap :=
  match cut '/' output with
  | none => .error { text := "invalid character".toList }
  | some (interfaceUUID, afuID) =>
    .ok [("afu-image".toList, .object
          [("interface-uuid".toList, .string interfaceUUID),
           ("accelerator-clusters".toList,
              .array [.object [("accelerator-type-uuid".toList, .string afuID)]])])]

/-- The concrete world; `order` is the visiting order of the loops over a
map. -/
def demoWorld (order : RangeLoop → GoSet → List GoString) : World Files where
  readFile files path :=
    match files.lookup path with
    | some data => .ok data
    | none => .error { text := "no such file or directory".toList }
  stat files path := if (files.lookup path).isSome then .found else .notExist
  combinedOutput files cmd args :=
    if cmd = packager then
      match args with
      | [_, _, path] =>
        match files.lookup path with
        | some image => ((image, none), files)
        | none => (("no image".toList, some { text := "exit status 1".toList }), files)
      | _ => (([], some { text := "exit status 2".toList }), files)
    else if cmd = fpgaconf then
      match args with
      | [_, devNum, path] => demoProgram files devNum path
      | _ => (([], some { text := "exit status 2".toList }), files)
    else if cmd = aocl then
      match args with
      | [_, aclDev, path] => demoProgram files (aclDev.drop 3) path
      | _ => (([], some { text := "exit status 2".toList }), files)
    else
      (([], some { text := "executable file not found".toList }), files)
  decodeJSONStream := demoDecode
  sprint
    | .string s => s
    | _ => []
  rangeOrder := order

/-- The visiting order that follows the list. -/
def inOrder : RangeLoop → GoSet → List GoString :=
  fun _ s => s

/-- The visiting order that reverses the list. -/
def reversed : RangeLoop → GoSet → List GoString :=
  fun _ s => s.reverse

/-- The path of the `afu_id` file of a device. -/
def afuIDFile (devNum : GoString) : GoString :=
  sprintf afuIDTemplate [devNum, devNum]

/-- The path of the `interface_id` file of a device. -/
def interfaceIDFile (devNum : GoString) : GoString :=
  sprintf interfaceIDTemplate [devNum, devNum]

/-! ## Concrete inputs -/

/-- The request of the scenario: region `abcd`, function `1234`, device 0. -/
def scenarioRequest : fpgaParams :=
  { region := "abcd".toList, afu := "1234".toList, devNum := "0".toList }

/-- The scenario: device 0 reports the interface identity `abcd` and the
function `ffff`; the repository holds a format-A image for the request. -/
def scenarioFiles : Files :=
  [(interfaceIDFile "0".toList, "abcd\n".toList),
   (afuIDFile "0".toList, "ffff\n".toList),
   ("/srv/intel.com/fpga/abcd/1234.gbs".toList, "AB-CD/12-34".toList)]

/-- The region map of the scenario: `FPGA_REGION_0=AB-CD`. -/
def scenarioRegionEnv : GoMap := [("FPGA_REGION_0".toList, "AB-CD".toList)]

/-- The afu map of the scenario: `FPGA_AFU_0=12-34`. -/
def scenarioAfuEnv : GoMap := [("FPGA_AFU_0".toList, "12-34".toList)]

/-- Two devices with the interface identities `AABB` and `ccdd`; device 0
holds the function `f2f2` already, device 1 holds `0000`. -/
def twoDeviceFiles : Files :=
  [(interfaceIDFile "0".toList, "AABB\n".toList),
   (interfaceIDFile "1".toList, "ccdd\n".toList),
   (afuIDFile "0".toList, "f2f2\n".toList),
   (afuIDFile "1".toList, "0000\n".toList)]

/-- Index 0 declares the region of device 1, index 1 the region of device 0. -/
def twoDeviceRegionEnv : GoMap :=
  [("FPGA_REGION_0".toList, "CC-DD".toList), ("FPGA_REGION_1".toList, "aa-bb".toList)]

/-- The functions declared under the indices 0 and 1. -/
def twoDeviceAfuEnv : GoMap :=
  [("FPGA_AFU_0".toList, "F1-F1".toList), ("FPGA_AFU_1".toList, "f2f2".toList)]

/-- Both indices declare the region of device 0. -/
def sharedRegionEnv : GoMap :=
  [("FPGA_REGION_0".toList, "aa-bb".toList), ("FPGA_REGION_1".toList, "AABB".toList)]

/-- The requests the resolver emits for the two devices, visiting the indices
in reverse: device 0 first. -/
def twoDeviceRequests : List fpgaParams :=
  [{ region := "aabb".toList, afu := "f2f2".toList, devNum := "0".toList },
   { region := "ccdd".toList, afu := "f1f1".toList, devNum := "1".toList }]

/-- A batch of devices and images: device 0 holds another function and has a
good format-B image; device 1 holds the function `f1f1`; devices 2 and 3 hold
`0000`; the format-A image `ccdd/f3f3` is one of another region, and the
format-B image `ccdd/f4f4` is not an image the programming tool accepts. -/
def batchFiles : Files :=
  [(afuIDFile "0".toList, "ffff\n".toList),
   (afuIDFile "1".toList, "f1f1\n".toList),
   (afuIDFile "2".toList, "0000\n".toList),
   (afuIDFile "3".toList, "0000\n".toList),
   ("/srv/intel.com/fpga/abcd/1234.aocx".toList, "abcd/1234".toList),
   ("/srv/intel.com/fpga/ccdd/f3f3.gbs".toList, "ffff/f3f3".toList),
   ("/srv/intel.com/fpga/ccdd/f4f4.aocx".toList, "garbage".toList)]

/-- A request whose device holds the function already. -/
def requestProgrammed : fpgaParams :=
  { region := "ccdd".toList, afu := "f1f1".toList, devNum := "1".toList }

/-- A request without an image in the repository. -/
def requestWithoutImage : fpgaParams :=
  { region := "ccdd".toList, afu := "f5f5".toList, devNum := "2".toList }

/-- A request whose image is one of another region. -/
def requestWrongImage : fpgaParams :=
  { region := "ccdd".toList, afu := "f3f3".toList, devNum := "2".toList }

/-- A request whose image the programming tool rejects. -/
def requestBrokenImage : fpgaParams :=
  { region := "ccdd".toList, afu := "f4f4".toList, devNum := "3".toList }

/-- The state after the request of the scenario is programmed in the batch. -/
def batchState : Files :=
  (processLoop mainEnv (demoWorld inOrder) batchFiles [scenarioRequest]).2.1

/-- The events of programming the request of the scenario in the batch. -/
def batchEvents : List Event :=
  (processLoop mainEnv (demoWorld inOrder) batchFiles [scenarioRequest]).2.2

/-- The format-A bitstream of the scenario. -/
def scenarioBitStream : opaeBitStream :=
  { path := "/srv/intel.com/fpga/abcd/1234.gbs".toList, params := scenarioRequest }

/-- An environment that declares a region under index 0 and a function under
index 1. -/
def unpairedEnv : List GoString :=
  ["FPGA_REGION_0=AB-CD".toList, "FPGA_AFU_1=12-34".toList, "PATH=/usr/bin".toList]

/-- Two strings differ only in the placement of hyphens and in the case of
letters: they are built from the empty strings by putting a hyphen in front
of either one, or characters with the same lower case in front of both. -/
inductive SameUpToHyphensAndCase : GoString → GoString → Prop where
  | nil : SameUpToHyphensAndCase [] []
  | hyphenLeft {x y : GoString} :
      SameUpToHyphensAndCase x y → SameUpToHyphensAndCase ('-' :: x) y
  | hyphenRight {x y : GoString} :
      SameUpToHyphensAndCase x y → SameUpToHyphensAndCase x ('-' :: y)
  | letter {c d : Char} {x y : GoString} :
      unicodeToLower c = unicodeToLower d → SameUpToHyphensAndCase x y →
      SameUpToHyphensAndCase (c :: x) (d :: y)

/-- The fields of the output of the inspection tool have the types
`opaeBitStream.validate` asserts, where they are present, and the list of
clusters has a first entry. -/
def gbsInfoShaped (content : JSONMap) : Bool :=
  match content.lookup "afu-image".toList with
  | none => true
  | some (.object afuImage) =>
    (match afuImage.lookup "interface-uuid".toList with
      | none => true
      | some (.string _) => true
      | some _ => false) &&
    (match afuImage.lookup "accelerator-clusters".toList with
      | none => true
      | some (.array (.object firstCluster :: _)) =>
        (match firstCluster.lookup "accelerator-type-uuid".toList with
          | none => true
          | some (.string _) => true
          | some _ => false)
      | some _ => false)
  | some _ => false

/-- The fields `process` and `linux` of a bundle configuration are objects,
where they are present. -/
def configShaped (config : JSONMap) : Bool :=
  (match config.lookup "process".toList with
    | none => true
    | some (.object _) => true
    | some _ => false) &&
  (match config.lookup "linux".toList with
    | none => true
    | some (.object _) => true
    | some _ => false)

/-- The field named `field` is absent from a bundle configuration: `process`
or `linux` from the document, `env` from the object `process`, `devices` from
the object `linux`. -/
def AbsentField (config : JSONMap) (field : GoString) : Prop :=
  (field = "process".toList ∧ config.lookup "process".toList = none) ∨
  (field = "env".toList ∧ ∃ processFields,
    config.lookup "process".toList = some (.object processFields) ∧
    processFields.lookup "env".toList = none) ∨
  (field = "linux".toList ∧ config.lookup "linux".toList = none) ∨
  (field = "devices".toList ∧ ∃ linuxFields,
    config.lookup "linux".toList = some (.object linuxFields) ∧
    linuxFields.lookup "devices".toList = none)

/-- The path `getBitStream` tries for an extension, line 283. -/
def bitStreamPathOf (he : hookEnv) (params : fpgaParams) (ext : GoString) : GoString :=
  filepathJoin [he.bitStreamDir, params.region, params.afu ++ ext]

/-- A JSON decoder given by a table from the bytes to the document. -/
def tableDecode (table : List (GoString × JSONMap)) (bytes : GoString) :
    Except ExtError JSONMap :=
  match table.lookup bytes with
  | some document => .ok document
  | none => .error { text := "invalid character".toList }

/-- The concrete world with the JSON decoder of a table. -/
def tableWorld (table : List (GoString × JSONMap)) : World Files :=
  { demoWorld inOrder with decodeJSONStream := tableDecode table }

/-- An output of the inspection tool whose list of clusters is empty. -/
def emptyClustersDocument : JSONMap :=
  [("afu-image".toList, .object
    [("interface-uuid".toList, .string "AB-CD".toList),
     ("accelerator-clusters".toList, .array [])])]

/-- An output of the inspection tool whose `afu-image` is a string. -/
def stringImageDocument : JSONMap :=
  [("afu-image".toList, .string "1234".toList)]

/-- An output of the inspection tool whose first cluster has no
`accelerator-type-uuid`. -/
def untypedClusterDocument : JSONMap :=
  [("afu-image".toList, .object
    [("interface-uuid".toList, .string "AB-CD".toList),
     ("accelerator-clusters".toList, .array [.object []])])]

/-- A request without the field `annotations`. -/
def requestWithoutAnnotations : JSONMap :=
  [("bundle".toList, .string "/run/bundle".toList)]

/-- A request whose annotation `com.intel.fpga.mode` has another value. -/
def requestOtherMode : JSONMap :=
  [("annotations".toList, .object
      [("com.intel.fpga.mode".toList, .string "fpga.intel.com/af".toList)]),
   ("bundle".toList, .string "/run/bundle".toList)]

/-- A request for the bundle `/run/bundle`. -/
def requestWithBundle : JSONMap :=
  [("annotations".toList, .object
      [("com.intel.fpga.mode".toList, .string "fpga.intel.com/region".toList)]),
   ("bundle".toList, .string "/run/bundle".toList)]

/-- A request with the annotation, without the field `bundle`. -/
def requestWithoutBundle : JSONMap :=
  [("annotations".toList, .object
      [("com.intel.fpga.mode".toList, .string "fpga.intel.com/region".toList)])]

/-- The files of the bundle `/run/bundle`. -/
def bundleFiles : Files :=
  [("/run/bundle/config.json".toList, "config".toList)]

/-- A bundle configuration whose `process` is a number, without `linux`. -/
def numberProcessConfig : JSONMap :=
  [("process".toList, .number "5".toList)]

/-- A bundle configuration with `process.env`, without `linux`. -/
def configWithoutLinux : JSONMap :=
  [("process".toList, .object [("env".toList, .array [])])]

/-- An attached device of a bundle configuration. -/
def deviceNode (path : GoString) : JSON :=
  .object [("path".toList, .string path)]

/-! ## The orchestrator: lemmas -/

theorem demoWorld_lawful_inOrder : (demoWorld inOrder).Lawful :=
  fun _ s => List.Perm.refl s

theorem demoWorld_lawful_reversed : (demoWorld reversed).Lawful :=
  fun _ s => List.reverse_perm s


theorem processLoop_append {σ : Type} (he : hookEnv) (w : World σ) (pre rest : List fpgaParams) :
    ∀ (s0 s1 : σ) (evs1 : List Event),
      processLoop he w s0 pre = (.next, s1, evs1) →
      processLoop he w s0 (pre ++ rest) =
        ((processLoop he w s1 rest).1, (processLoop he w s1 rest).2.1,
          evs1 ++ (processLoop he w s1 rest).2.2) := by
  induction pre with
  | nil =>
    intro s0 s1 evs1 h
    simp only [processLoop, Prod.mk.injEq, true_and] at h
    obtain ⟨rfl, rfl⟩ := h
    simp
  | cons p pre ih =>
    intro s0 s1 evs1 h
    rw [List.cons_append]
    simp only [processLoop] at h ⊢
    rcases hp : processRequest he w s0 p with ⟨flow, sp, evsp⟩
    rw [hp] at h
    cases flow with
    | next =>
      simp only at h ⊢
      rcases hr : processLoop he w sp pre with ⟨f2, s2, evs2⟩
      rw [hr] at h
      simp only [Prod.mk.injEq] at h
      obtain ⟨rfl, rfl, rfl⟩ := h
      rw [ih sp s2 evs2 hr]
      simp
    | ret r => simp at h

theorem getProgrammedAfu_events {σ : Type} (he : hookEnv) (w : World σ) (s : σ) (d : GoString) :
    (getProgrammedAfu he w s d).2 = [.readFile (sprintf he.afuIDTemplate [d, d])] := by
  simp only [getProgrammedAfu]
  split <;> rfl

theorem getBitStreamLoop_events {σ : Type} (he : hookEnv) (w : World σ) (s : σ) (p : fpgaParams)
    (exts : List GoString) :
    ∀ e ∈ (getBitStreamLoop he w s p exts).2, e.isStat = true := by
  induction exts with
  | nil => simp [getBitStreamLoop]
  | cons ext rest ih =>
    intro e he1
    simp only [getBitStreamLoop] at he1
    split at he1
    · simp only [List.mem_cons] at he1
      rcases he1 with rfl | h
      · rfl
      · exact ih e h
    · simp only [List.mem_singleton] at he1
      subst he1; rfl
    · split at he1
      · simp only [List.mem_singleton] at he1
        subst he1; rfl
      · split at he1
        · simp only [List.mem_singleton] at he1
          subst he1; rfl
        · simp only [List.mem_cons] at he1
          rcases he1 with rfl | h
          · rfl
          · exact ih e h

theorem validate_events {σ : Type} (w : World σ) (s : σ) (b : fpgaBitStream) :
    ∀ e ∈ (b.validate w s).2.2, e.isProgram = false := by
  intro e he1
  cases b with
  | opae b =>
    simp only [fpgaBitStream.validate, opaeBitStream.validate] at he1
    have hp : (Event.command packager ["gbs-info".toList, "--gbs".toList, b.path]).isProgram = false := by
      simp only [Event.isProgram]; decide
    split at he1
    · simp only [List.mem_singleton] at he1; subst he1; exact hp
    · split at he1
      · simp only [List.mem_singleton] at he1; subst he1; exact hp
      · simp only [List.mem_singleton] at he1; subst he1; exact hp
  | openCL b =>
    simp [fpgaBitStream.validate, openCLBitStream.validate] at he1

theorem processParams_append {σ : Type} (he : hookEnv) (w : World σ) (pre rest : List fpgaParams)
    (s0 s1 : σ) (evs1 : List Event) (h : processLoop he w s0 pre = (.next, s1, evs1)) :
    processParams he w s0 (pre ++ rest) =
      ((processParams he w s1 rest).1, (processParams he w s1 rest).2.1,
        evs1 ++ (processParams he w s1 rest).2.2) := by
  simp only [processParams, processLoop_append he w pre rest s0 s1 evs1 h]
  rcases processLoop he w s1 rest with ⟨f, s2, evs2⟩
  cases f <;> rfl

theorem processParams_cons_ret {σ : Type} (he : hookEnv) (w : World σ) (p : fpgaParams)
    (rest : List fpgaParams) (s s1 : σ) (r : Result Unit) (evs : List Event)
    (h : processRequest he w s p = (.ret r, s1, evs)) :
    processParams he w s (p :: rest) = (r, s1, evs) := by
  simp [processParams, processLoop, h]

theorem program_events {σ : Type} (w : World σ) (s : σ) (b : fpgaBitStream) :
    ∃ cmd args, (b.program w s).2.2 = [.command cmd args] ∧
      (Event.command cmd args).isProgram = true := by
  cases b with
  | opae b =>
    refine ⟨fpgaconf, ["-s".toList, b.params.devNum, b.path], ?_, by simp [Event.isProgram]⟩
    simp only [fpgaBitStream.program, opaeBitStream.program]
    split <;> rfl
  | openCL b =>
    refine ⟨aocl, ["program".toList, "acl".toList ++ b.params.devNum, b.path], ?_,
      by simp [Event.isProgram]⟩
    simp only [fpgaBitStream.program, openCLBitStream.program]
    split <;> rfl

theorem getBitStream_events {σ : Type} (he : hookEnv) (w : World σ) (s : σ) (p : fpgaParams) :
    ∀ e ∈ (getBitStream he w s p).2, e.isStat = true :=
  getBitStreamLoop_events he w s p _

theorem isStat_not_command (e : Event) (h : e.isStat = true) :
    e.isCommand = false ∧ e.isProgram = false := by
  cases e <;> simp_all [Event.isStat, Event.isCommand, Event.isProgram]

/-! ## The resolver: lemmas -/

theorem GoSet.perm_cons_delete (s : GoSet) (k : GoString) (h : k ∈ s) :
    s.Perm (k :: s.delete k) := by
  induction s with
  | nil => simp at h
  | cons x xs ih =>
    simp only [GoSet.delete]
    by_cases hx : x = k
    · rw [if_pos hx, hx]
    · rw [if_neg hx]
      have hk : k ∈ xs := by
        rcases List.mem_cons.1 h with h1 | h1
        · exact absurd h1.symm hx
        · exact h1
      exact ((ih hk).cons x).trans (List.Perm.swap k x _)

theorem findDevice_some {σ : Type} (he : hookEnv) (w : World σ) (s : σ) (interfaceID : GoString)
    (devs : List GoString) (devNum : GoString)
    (h : (findDevice he w s interfaceID devs).1 = .ok (some devNum)) :
    devNum ∈ devs ∧
      ∃ iID, (getInterfaceID he w s devNum).1 = .ok iID ∧ interfaceID = canonize iID := by
  induction devs with
  | nil => simp [findDevice] at h
  | cons d rest ih =>
    simp only [findDevice] at h
    rcases hg : getInterfaceID he w s d with ⟨r, evs⟩
    rw [hg] at h
    cases r with
    | error err => simp at h
    | ok iID =>
      simp only at h
      by_cases hm : interfaceID = canonize iID
      · rw [if_pos hm] at h
        simp only [Except.ok.injEq, Option.some.injEq] at h
        subst h
        exact ⟨List.mem_cons_self _ _, iID, by rw [hg], hm⟩
      · rw [if_neg hm] at h
        obtain ⟨h1, h2⟩ := ih h
        exact ⟨List.mem_cons_of_mem _ h1, h2⟩

theorem findDevice_readable {σ : Type} (he : hookEnv) (w : World σ) (s : σ)
    (interfaceID : GoString) (idOf : GoString → GoString) (devs : List GoString)
    (hread : ∀ d ∈ devs, (getInterfaceID he w s d).1 = .ok (idOf d)) :
    (findDevice he w s interfaceID devs).1 =
      .ok (devs.find? (fun d => decide (interfaceID = canonize (idOf d)))) := by
  induction devs with
  | nil => simp [findDevice]
  | cons d rest ih =>
    have hd := hread d (List.mem_cons_self _ _)
    simp only [findDevice]
    rcases hg : getInterfaceID he w s d with ⟨r, evs⟩
    rw [hg] at hd
    simp only at hd
    subst hd
    simp only
    by_cases hm : interfaceID = canonize (idOf d)
    · simp [hm]
    · rw [if_neg hm]
      simp only [List.find?_cons, hm, decide_False]
      exact ih (fun d1 h1 => hread d1 (List.mem_cons_of_mem _ h1))

theorem produceLoop_ok {σ : Type} (he : hookEnv) (w : World σ) (s : σ) (regionEnv afuEnv : GoMap)
    (hlaw : w.Lawful) (bs : List GoString) :
    ∀ (devs : GoSet) (acc params : List fpgaParams),
      (produceLoop he w s regionEnv afuEnv bs devs acc).1 = .ok params →
      ∃ new, params = acc ++ new ∧
        List.Forall₂ (Binds he w s regionEnv afuEnv) bs new ∧
        (new.map fpgaParams.devNum).Subperm devs := by
  induction bs with
  | nil =>
    intro devs acc params h
    simp only [produceLoop, Except.ok.injEq] at h
    exact ⟨[], by simp [h], List.Forall₂.nil, by simp⟩
  | cons b rest ih =>
    intro devs acc params h
    simp only [produceLoop] at h
    rcases hf : findDevice he w s (canonize (regionEnv.get (fpgaRegionEnvPrefix ++ b)))
      (w.rangeOrder .devices devs) with ⟨r, evs⟩
    rw [hf] at h
    cases r with
    | error err => simp at h
    | ok found =>
      cases found with
      | none => simp at h
      | some d =>
        simp only at h
        obtain ⟨hmem, iID, hid, hcan⟩ := findDevice_some he w s _ _ d (by rw [hf])
        have hd : d ∈ devs := (hlaw .devices devs).mem_iff.1 hmem
        obtain ⟨new, hnew, hall, hsub⟩ := ih _ _ _ h
        refine ⟨{ afu := canonize (afuEnv.get (fpgaAfuEnvPrefix ++ b)),
                  region := canonize (regionEnv.get (fpgaRegionEnvPrefix ++ b)),
                  devNum := d } :: new, ?_,
          List.Forall₂.cons ⟨rfl, rfl, iID, hid, hcan⟩ hall, ?_⟩
        · rw [hnew]; simp
        · simp only [List.map_cons]
          exact ((List.subperm_cons d).2 hsub).trans (GoSet.perm_cons_delete devs d hd).symm.subperm

theorem produceLoop_isOk_iff {σ : Type} (he : hookEnv) (w : World σ) (s : σ)
    (regionEnv afuEnv : GoMap) (hlaw : w.Lawful) (idOf : GoString → GoString)
    (bs : List GoString) :
    ∀ (devs : GoSet) (acc : List fpgaParams),
      (∀ d ∈ devs, (getInterfaceID he w s d).1 = .ok (idOf d)) →
      bs.length = devs.length →
      (((produceLoop he w s regionEnv afuEnv bs devs acc).1.isOk = true ↔
        (bs.map (declaredRegion regionEnv)).Perm (devs.map (fun d => canonize (idOf d)))) ∧
       ((produceLoop he w s regionEnv afuEnv bs devs acc).1.isOk = false →
        ∃ interfaceID, (produceLoop he w s regionEnv afuEnv bs devs acc).1 =
          .error (.noDevice interfaceID))) := by
  induction bs with
  | nil =>
    intro devs acc _ hlen
    have hd : devs = [] := List.length_eq_zero.1 hlen.symm
    subst hd
    simp [produceLoop, Result.isOk]
  | cons b rest ih =>
    intro devs acc hread hlen
    have hperm := hlaw .devices devs
    have hread1 : ∀ d ∈ w.rangeOrder .devices devs, (getInterfaceID he w s d).1 = .ok (idOf d) :=
      fun d hd => hread d (hperm.mem_iff.1 hd)
    have hfind := findDevice_readable he w s
      (canonize (regionEnv.get (fpgaRegionEnvPrefix ++ b))) idOf _ hread1
    simp only [produceLoop]
    rcases hf : findDevice he w s (canonize (regionEnv.get (fpgaRegionEnvPrefix ++ b)))
      (w.rangeOrder .devices devs) with ⟨r, evs⟩
    rw [hf] at hfind
    simp only at hfind
    subst hfind
    cases hq : (w.rangeOrder .devices devs).find?
        (fun d => decide (canonize (regionEnv.get (fpgaRegionEnvPrefix ++ b)) =
          canonize (idOf d))) with
    | none =>
      simp only [Result.isOk, Bool.false_eq_true, false_iff, forall_const]
      refine ⟨?_, _, rfl⟩
      intro hp
      have hmem : declaredRegion regionEnv b ∈ devs.map (fun d => canonize (idOf d)) :=
        hp.mem_iff.1 (by simp)
      obtain ⟨d, hd, hdeq⟩ := List.mem_map.1 hmem
      have := List.find?_eq_none.1 hq d (hperm.mem_iff.2 hd)
      simp only [decide_eq_true_eq] at this
      exact this hdeq.symm
    | some d =>
      simp only
      have hdmem : d ∈ devs := hperm.mem_iff.1 (List.mem_of_find?_eq_some hq)
      have hdeq : canonize (regionEnv.get (fpgaRegionEnvPrefix ++ b)) = canonize (idOf d) := by
        have := List.find?_some hq
        simpa using this
      have hpd := GoSet.perm_cons_delete devs d hdmem
      have hlen1 : rest.length = (devs.delete d).length := by
        have := hpd.length_eq
        simp only [List.length_cons] at this hlen
        omega
      have hread2 : ∀ x ∈ devs.delete d, (getInterfaceID he w s x).1 = .ok (idOf x) :=
        fun x hx => hread x (hpd.mem_iff.2 (List.mem_cons_of_mem _ hx))
      obtain ⟨ih1, ih2⟩ := ih (devs.delete d)
        (acc ++ [{ afu := canonize (afuEnv.get (fpgaAfuEnvPrefix ++ b)),
                   region := canonize (regionEnv.get (fpgaRegionEnvPrefix ++ b)),
                   devNum := d }]) hread2 hlen1
      refine ⟨?_, ih2⟩
      rw [ih1]
      have hmap : (devs.map (fun d => canonize (idOf d))).Perm
          (declaredRegion regionEnv b :: (devs.delete d).map (fun d => canonize (idOf d))) := by
        have := hpd.map (fun d => canonize (idOf d))
        simpa [declaredRegion, hdeq] using this
      simp only [List.map_cons]
      constructor
      · intro h
        exact (h.cons _).trans hmap.symm
      · intro h
        exact (List.perm_cons _).1 (h.trans hmap)

theorem perm_map_iff_pairing {α β γ : Type} (f : α → γ) (g : β → γ) (as : List α) :
    ∀ bs : List β, (as.map f).Perm (bs.map g) ↔
      ∃ l : List β, l.Perm bs ∧ List.Forall₂ (fun a b => f a = g b) as l := by
  intro bs
  constructor
  · induction as generalizing bs with
    | nil =>
      intro h
      have : bs = [] := by simpa using h.symm.eq_nil
      exact ⟨[], by simp [this], List.Forall₂.nil⟩
    | cons a as ih =>
      intro h
      classical
      have hmem : f a ∈ bs.map g := h.mem_iff.1 (by simp)
      obtain ⟨b, hb, hbeq⟩ := List.mem_map.1 hmem
      have hpb := List.perm_cons_erase hb
      have h2 : (as.map f).Perm ((bs.erase b).map g) := by
        have h3 := h.trans (hpb.map g)
        simp only [List.map_cons, hbeq] at h3
        exact (List.perm_cons _).1 h3
      obtain ⟨l, hl, hall⟩ := ih _ h2
      exact ⟨b :: l, (hl.cons b).trans hpb.symm, List.Forall₂.cons hbeq.symm hall⟩
  · rintro ⟨l, hl, hall⟩
    have : as.map f = l.map g := by
      clear hl
      induction hall with
      | nil => rfl
      | cons h _ ih => simp [h, ih]
    rw [this]
    exact hl.map g

theorem Readable.eq_interfaceIDOf {σ : Type} {he : hookEnv} {w : World σ} {s : σ}
    {devSet : GoSet} (h : Readable he w s devSet) :
    ∀ d ∈ devSet, (getInterfaceID he w s d).1 = .ok (interfaceIDOf he w s d) := by
  intro d hd
  obtain ⟨iID, hi⟩ := h d hd
  simp [interfaceIDOf, hi]

theorem produceFPGAParams_of_counts {σ : Type} (he : hookEnv) (w : World σ) (s : σ)
    (regionEnv afuEnv : GoMap) (envSet devSet : GoSet)
    (hcount : CountsPass regionEnv afuEnv envSet devSet) :
    produceFPGAParams he w s regionEnv afuEnv envSet devSet =
      produceLoop he w s regionEnv afuEnv (w.rangeOrder .bitstreams envSet) devSet [] := by
  obtain ⟨h0, h1, h2, h3⟩ := hcount
  unfold produceFPGAParams
  rw [if_neg h0, if_neg (by rw [not_or]; exact ⟨not_not.2 h1, not_not.2 h2⟩),
    if_neg (not_not.2 h3)]

theorem counts_of_produceFPGAParams_ok {σ : Type} (he : hookEnv) (w : World σ) (s : σ)
    (regionEnv afuEnv : GoMap) (envSet devSet : GoSet) (params : List fpgaParams)
    (hok : (produceFPGAParams he w s regionEnv afuEnv envSet devSet).1 = .ok params) :
    CountsPass regionEnv afuEnv envSet devSet := by
  unfold produceFPGAParams at hok
  by_cases h0 : envSet.length = 0
  · rw [if_pos h0] at hok; simp at hok
  · rw [if_neg h0] at hok
    by_cases h1 : envSet.length ≠ regionEnv.length ∨ envSet.length ≠ afuEnv.length
    · rw [if_pos h1] at hok; simp at hok
    · rw [if_neg h1] at hok
      by_cases h2 : devSet.length ≠ envSet.length
      · rw [if_pos h2] at hok; simp at hok
      · simp only [not_or, not_not, ne_eq] at h1 h2
        exact ⟨h0, h1.1, h1.2, h2⟩

theorem forall₂_exists_left {α β : Type} {R : α → β → Prop} {as : List α} {bs : List β}
    (h : List.Forall₂ R as bs) : ∀ b ∈ bs, ∃ a ∈ as, R a b := by
  induction h with
  | nil => intro b hb; simp at hb
  | cons h _ ih =>
    intro b hb
    rcases List.mem_cons.1 hb with rfl | h1
    · exact ⟨_, List.mem_cons_self _ _, h⟩
    · obtain ⟨a, ha, hr⟩ := ih b h1
      exact ⟨a, List.mem_cons_of_mem _ ha, hr⟩

theorem produce_ok_facts {σ : Type} (he : hookEnv) (w : World σ) (s : σ)
    (regionEnv afuEnv : GoMap) (envSet devSet : GoSet) (params : List fpgaParams)
    (hlaw : w.Lawful)
    (hok : (produceFPGAParams he w s regionEnv afuEnv envSet devSet).1 = .ok params) :
    List.Forall₂ (Binds he w s regionEnv afuEnv) (w.rangeOrder .bitstreams envSet) params ∧
    params.length = envSet.length ∧
    (params.map fpgaParams.devNum).Perm devSet := by
  have hcount := counts_of_produceFPGAParams_ok he w s regionEnv afuEnv envSet devSet params hok
  rw [produceFPGAParams_of_counts he w s regionEnv afuEnv envSet devSet hcount] at hok
  obtain ⟨new, hnew, hall, hsub⟩ := produceLoop_ok he w s regionEnv afuEnv hlaw _ _ _ _ hok
  simp only [List.nil_append] at hnew
  subst hnew
  have hlen : params.length = envSet.length := by
    rw [← hall.length_eq, (hlaw .bitstreams envSet).length_eq]
  refine ⟨hall, hlen, hsub.perm_of_length_le ?_⟩
  rw [List.length_map, hlen, hcount.2.2.2]

theorem getInterfaceID_congr {σ : Type} (he : hookEnv) (w w1 : World σ) (s : σ)
    (h : w1.readFile = w.readFile) (d : GoString) :
    getInterfaceID he w1 s d = getInterfaceID he w s d := by
  simp only [getInterfaceID, h]

theorem produce_isOk_iff {σ : Type} (he : hookEnv) (w : World σ) (s : σ)
    (regionEnv afuEnv : GoMap) (envSet devSet : GoSet)
    (hlaw : w.Lawful) (hcount : CountsPass regionEnv afuEnv envSet devSet)
    (hread : Readable he w s devSet) :
    ((produceFPGAParams he w s regionEnv afuEnv envSet devSet).1.isOk = true ↔
      (envSet.map (declaredRegion regionEnv)).Perm
        (devSet.map (fun d => canonize (interfaceIDOf he w s d)))) ∧
    ((produceFPGAParams he w s regionEnv afuEnv envSet devSet).1.isOk = false →
      ∃ interfaceID, (produceFPGAParams he w s regionEnv afuEnv envSet devSet).1 =
        .error (.noDevice interfaceID)) := by
  rw [produceFPGAParams_of_counts he w s regionEnv afuEnv envSet devSet hcount]
  have hp := hlaw .bitstreams envSet
  obtain ⟨h1, h2⟩ := produceLoop_isOk_iff he w s regionEnv afuEnv hlaw (interfaceIDOf he w s)
    (w.rangeOrder .bitstreams envSet) devSet [] hread.eq_interfaceIDOf
    (by rw [hp.length_eq, hcount.2.2.2])
  refine ⟨?_, h2⟩
  rw [h1]
  have hm := hp.map (declaredRegion regionEnv)
  exact ⟨fun h => hm.symm.trans h, fun h => hm.trans h⟩

theorem regions_perm_identities {σ : Type} (he : hookEnv) (w : World σ) (s : σ)
    (regionEnv : GoMap) :
    ∀ (envSet devSet : GoSet), envSet.Nodup → envSet.length = devSet.length →
      (∀ b ∈ envSet, ∃ d, d ∈ devSet ∧
        canonize (interfaceIDOf he w s d) = declaredRegion regionEnv b) →
      (∀ b ∈ envSet, ∀ b1 ∈ envSet,
        declaredRegion regionEnv b = declaredRegion regionEnv b1 → b = b1) →
      (envSet.map (declaredRegion regionEnv)).Perm
        (devSet.map (fun d => canonize (interfaceIDOf he w s d))) := by
  intro envSet
  induction envSet with
  | nil =>
    intro devSet _ hlen _ _
    have : devSet = [] := List.length_eq_zero.1 hlen.symm
    subst this
    simp
  | cons b rest ih =>
    intro devSet hnd hlen hmatch hinj
    obtain ⟨d, hd, hdeq⟩ := hmatch b (List.mem_cons_self _ _)
    have hpd := GoSet.perm_cons_delete devSet d hd
    have hlen1 : rest.length = (devSet.delete d).length := by
      have := hpd.length_eq
      simp only [List.length_cons] at this hlen
      omega
    have hnd1 := List.nodup_cons.1 hnd
    have hrec := ih (devSet.delete d) hnd1.2 hlen1
      (by
        intro b1 hb1
        obtain ⟨d1, hd1, hd1eq⟩ := hmatch b1 (List.mem_cons_of_mem _ hb1)
        refine ⟨d1, ?_, hd1eq⟩
        rcases List.mem_cons.1 (hpd.mem_iff.1 hd1) with h | h
        · exfalso
          subst h
          have := hinj b (List.mem_cons_self _ _) b1 (List.mem_cons_of_mem _ hb1)
            (hdeq.symm.trans hd1eq)
          subst this
          exact hnd1.1 hb1
        · exact h)
      (fun x hx y hy => hinj x (List.mem_cons_of_mem _ hx) y (List.mem_cons_of_mem _ hy))
    have hm := hpd.map (fun d => canonize (interfaceIDOf he w s d))
    simp only [List.map_cons] at hm ⊢
    rw [hdeq] at hm
    exact (hrec.cons _).trans hm.symm

/-! ## The partition step: lemmas -/

theorem cut_of_mem (sep : Char) (s : GoString) (h : sep ∈ s) :
    ∃ after, cut sep s = some (s.takeWhile (fun c => c != sep), after) := by
  induction s with
  | nil => simp at h
  | cons c cs ih =>
    simp only [cut]
    by_cases hc : c = sep
    · subst hc
      exact ⟨cs, by simp⟩
    · rw [if_neg hc]
      have hm : sep ∈ cs := by
        rcases List.mem_cons.1 h with h1 | h1
        · exact absurd h1.symm hc
        · exact h1
      obtain ⟨after, ha⟩ := ih hm
      refine ⟨after, ?_⟩
      rw [ha]
      simp [List.takeWhile_cons, hc]

theorem splitN_two_of_mem (env : GoString) (h : '=' ∈ env) :
    ∃ value, splitN '=' 2 env = [envKey env, value] := by
  obtain ⟨after, ha⟩ := cut_of_mem '=' env h
  exact ⟨after, by simp [splitN, ha, envKey]⟩

theorem splitN_region (idx : GoString) :
    splitN '_' 3 (fpgaRegionEnvPrefix ++ idx) = ["FPGA".toList, "REGION".toList, idx] := by
  show splitN '_' 3 ('F' :: 'P' :: 'G' :: 'A' :: '_' :: 'R' :: 'E' :: 'G' :: 'I' :: 'O' :: 'N' ::
    '_' :: idx) = _
  simp [splitN, cut]

theorem splitN_afu (idx : GoString) :
    splitN '_' 3 (fpgaAfuEnvPrefix ++ idx) = ["FPGA".toList, "AFU".toList, idx] := by
  show splitN '_' 3 ('F' :: 'P' :: 'G' :: 'A' :: '_' :: 'A' :: 'F' :: 'U' :: '_' :: idx) = _
  simp [splitN, cut]

theorem hasPrefix_iff (s pre : GoString) :
    hasPrefix s pre = true ↔ s = pre ++ s.drop pre.length := by
  simp only [hasPrefix, List.isPrefixOf_iff_prefix]
  constructor
  · rintro ⟨t, rfl⟩
    simp
  · intro h
    exact ⟨_, h.symm⟩

theorem not_afu_of_region (key : GoString) (h : hasPrefix key fpgaRegionEnvPrefix = true) :
    hasPrefix key fpgaAfuEnvPrefix = false := by
  rw [hasPrefix_iff] at h
  rw [Bool.eq_false_iff]
  intro h2
  rw [hasPrefix_iff] at h2
  rw [h] at h2
  have : ('F' :: 'P' :: 'G' :: 'A' :: '_' :: 'R' :: 'E' :: 'G' :: 'I' :: 'O' :: 'N' ::
      '_' :: List.drop fpgaRegionEnvPrefix.length key) =
      ('F' :: 'P' :: 'G' :: 'A' :: '_' :: 'A' :: 'F' :: 'U' :: '_' ::
        List.drop fpgaAfuEnvPrefix.length (fpgaRegionEnvPrefix ++
          List.drop fpgaRegionEnvPrefix.length key)) := h2
  simp at this

theorem GoMap.keys_set (m : GoMap) (k v : GoString) :
    (m.set k v).keys = if k ∈ m.keys then m.keys else m.keys ++ [k] := by
  unfold GoMap.set GoMap.keys
  have hany : (m.any (fun p => p.1 == k) = true) ↔ k ∈ m.map Prod.fst := by
    simp only [List.any_eq_true, List.mem_map, beq_iff_eq]
  by_cases h : k ∈ m.map Prod.fst
  · rw [if_pos (hany.2 h), if_pos h, List.map_map]
    apply List.map_congr_left
    intro p _
    by_cases hp : p.1 = k
    · simp [hp]
    · simp [hp]
  · rw [if_neg (fun h1 => h (hany.1 h1)), if_neg h]
    simp

theorem GoMap.length_eq_keys (m : GoMap) : m.length = m.keys.length := by
  simp [GoMap.keys]

theorem GoSet.mem_add (s : GoSet) (k i : GoString) : i ∈ s.add k ↔ i ∈ s ∨ i = k := by
  unfold GoSet.add
  by_cases h : k ∈ s
  · rw [if_pos h]
    constructor
    · exact Or.inl
    · rintro (h1 | h1)
      · exact h1
      · rw [h1]; exact h
  · rw [if_neg h]; simp

theorem GoSet.nodup_add (s : GoSet) (k : GoString) (h : s.Nodup) : (s.add k).Nodup := by
  unfold GoSet.add
  by_cases hk : k ∈ s
  · rw [if_pos hk]; exact h
  · rw [if_neg hk]
    exact List.Nodup.append h (List.nodup_singleton k) (by simpa using hk)

theorem keys_set_nodup (m : GoMap) (k v : GoString) (h : m.keys.Nodup) :
    (m.set k v).keys.Nodup := by
  rw [GoMap.keys_set]
  by_cases hk : k ∈ m.keys
  · rw [if_pos hk]; exact h
  · rw [if_neg hk]
    exact List.Nodup.append h (List.nodup_singleton k) (by simpa using hk)

theorem mem_keys_set (m : GoMap) (k v x : GoString) :
    x ∈ (m.set k v).keys ↔ x ∈ m.keys ∨ x = k := by
  rw [GoMap.keys_set]
  by_cases hk : k ∈ m.keys
  · rw [if_pos hk]
    constructor
    · exact Or.inl
    · rintro (h1 | h1)
      · exact h1
      · rw [h1]; exact hk
  · rw [if_neg hk]; simp

theorem partitionEnvStep_inv (maps : EnvMaps) (rs as : List GoString) (env : GoString)
    (hinv : PartitionInv maps rs as) (henv : '=' ∈ env) :
    ∃ maps1, partitionEnvStep maps env = .ok maps1 ∧
      PartitionInv maps1 (rs ++ regionIndices [env]) (as ++ afuIndices [env]) := by
  obtain ⟨value, hsplit⟩ := splitN_two_of_mem env henv
  obtain ⟨h1, h2, h3, h4, h5, h6⟩ := hinv
  unfold partitionEnvStep
  simp only [hsplit, List.getElem?_cons_zero, List.getElem?_cons_succ]
  by_cases hr : hasPrefix (envKey env) fpgaRegionEnvPrefix = true
  · have hkey := (hasPrefix_iff _ _).1 hr
    have hna := not_afu_of_region _ hr
    have hidx : (splitN '_' 3 (envKey env))[2]? =
        some ((envKey env).drop fpgaRegionEnvPrefix.length) := by
      conv_lhs => rw [hkey]
      rw [splitN_region]
      rfl
    simp only [hr, if_true, hidx]
    refine ⟨_, rfl, ?_⟩
    have hri : regionIndices [env] = [(envKey env).drop fpgaRegionEnvPrefix.length] := by
      simp [regionIndices, hr]
    have hai : afuIndices [env] = [] := by
      simp [afuIndices, hna]
    rw [hri, hai, List.append_nil]
    refine ⟨GoSet.nodup_add _ _ h1, keys_set_nodup _ _ _ h2, h3, ?_, h5, ?_⟩
    · intro k
      rw [mem_keys_set, h4 k]
      constructor
      · rintro (⟨i, hi, rfl⟩ | hk)
        · exact ⟨i, List.mem_append_left _ hi, rfl⟩
        · exact ⟨_, List.mem_append_right _ (List.mem_singleton_self _), hk.trans hkey⟩
      · rintro ⟨i, hi, rfl⟩
        rcases List.mem_append.1 hi with h | h
        · exact Or.inl ⟨i, h, rfl⟩
        · rw [List.mem_singleton.1 h]
          exact Or.inr hkey.symm
    · intro i
      rw [GoSet.mem_add, h6 i, List.mem_append, List.mem_singleton]
      tauto
  · have hr1 : hasPrefix (envKey env) fpgaRegionEnvPrefix = false := by
      simpa using hr
    have hri : regionIndices [env] = [] := by
      simp [regionIndices, hr1]
    by_cases ha : hasPrefix (envKey env) fpgaAfuEnvPrefix = true
    · have hkey := (hasPrefix_iff _ _).1 ha
      have hidx : (splitN '_' 3 (envKey env))[2]? =
          some ((envKey env).drop fpgaAfuEnvPrefix.length) := by
        conv_lhs => rw [hkey]
        rw [splitN_afu]
        rfl
      simp only [hr1, ha, if_true, hidx, Bool.false_eq_true, if_false]
      refine ⟨_, rfl, ?_⟩
      have hai : afuIndices [env] = [(envKey env).drop fpgaAfuEnvPrefix.length] := by
        simp [afuIndices, ha]
      rw [hri, hai, List.append_nil]
      refine ⟨GoSet.nodup_add _ _ h1, h2, keys_set_nodup _ _ _ h3, h4, ?_, ?_⟩
      · intro k
        rw [mem_keys_set, h5 k]
        constructor
        · rintro (⟨i, hi, rfl⟩ | hk)
          · exact ⟨i, List.mem_append_left _ hi, rfl⟩
          · exact ⟨_, List.mem_append_right _ (List.mem_singleton_self _), hk.trans hkey⟩
        · rintro ⟨i, hi, rfl⟩
          rcases List.mem_append.1 hi with h | h
          · exact Or.inl ⟨i, h, rfl⟩
          · rw [List.mem_singleton.1 h]
            exact Or.inr hkey.symm
      · intro i
        rw [GoSet.mem_add, h6 i, List.mem_append, List.mem_singleton]
        tauto
    · have ha1 : hasPrefix (envKey env) fpgaAfuEnvPrefix = false := by
        simpa using ha
      have hai : afuIndices [env] = [] := by
        simp [afuIndices, ha1]
      simp only [hr1, ha1, Bool.false_eq_true, if_false]
      refine ⟨_, rfl, ?_⟩
      rw [hri, hai, List.append_nil, List.append_nil]
      exact ⟨h1, h2, h3, h4, h5, h6⟩

theorem regionIndices_cons (env : GoString) (rest : List GoString) :
    regionIndices (env :: rest) = regionIndices [env] ++ regionIndices rest := by
  simp only [regionIndices]
  rw [← List.filterMap_append]
  rfl

theorem afuIndices_cons (env : GoString) (rest : List GoString) :
    afuIndices (env :: rest) = afuIndices [env] ++ afuIndices rest := by
  simp only [afuIndices]
  rw [← List.filterMap_append]
  rfl

theorem partitionEnvLoop_inv (envs : List GoString) :
    ∀ (maps : EnvMaps) (rs as : List GoString), PartitionInv maps rs as →
      (∀ env ∈ envs, '=' ∈ env) →
      ∃ maps1, partitionEnvLoop maps envs = .ok maps1 ∧
        PartitionInv maps1 (rs ++ regionIndices envs) (as ++ afuIndices envs) := by
  induction envs with
  | nil =>
    intro maps rs as hinv _
    exact ⟨maps, rfl, by simpa [regionIndices, afuIndices] using hinv⟩
  | cons env rest ih =>
    intro maps rs as hinv hkv
    obtain ⟨maps1, hstep, hinv1⟩ :=
      partitionEnvStep_inv maps rs as env hinv (hkv env (List.mem_cons_self _ _))
    obtain ⟨maps2, hloop, hinv2⟩ := ih maps1 _ _ hinv1
      (fun e he => hkv e (List.mem_cons_of_mem _ he))
    refine ⟨maps2, by simp [partitionEnvLoop, hstep, hloop], ?_⟩
    rw [regionIndices_cons, afuIndices_cons, ← List.append_assoc, ← List.append_assoc]
    exact hinv2

theorem partitionEnv_inv (envs : List GoString) (hkv : ∀ env ∈ envs, '=' ∈ env) :
    ∃ maps, partitionEnv envs = .ok maps ∧
      PartitionInv maps (regionIndices envs) (afuIndices envs) := by
  have h0 : PartitionInv { regionEnv := [], afuEnv := [], envSet := [] } [] [] := by
    simp [PartitionInv, GoMap.keys]
  simpa using partitionEnvLoop_inv envs _ [] [] h0 hkv

theorem prefix_append_injective (pre : GoString) : Function.Injective (fun i : GoString => pre ++ i) :=
  fun _ _ h => List.append_cancel_left h

theorem partition_sizes (maps : EnvMaps) (rs as : List GoString)
    (hinv : PartitionInv maps rs as) :
    maps.regionEnv.length = rs.toFinset.card ∧ maps.afuEnv.length = as.toFinset.card ∧
      maps.envSet.length = (rs.toFinset ∪ as.toFinset).card := by
  obtain ⟨h1, h2, h3, h4, h5, h6⟩ := hinv
  refine ⟨?_, ?_, ?_⟩
  · rw [GoMap.length_eq_keys, ← List.toFinset_card_of_nodup h2,
      ← Finset.card_image_of_injective rs.toFinset (prefix_append_injective fpgaRegionEnvPrefix)]
    congr 1
    ext k
    simp only [List.mem_toFinset, Finset.mem_image, h4 k]
    constructor
    · rintro ⟨i, hi, rfl⟩; exact ⟨i, hi, rfl⟩
    · rintro ⟨i, hi, rfl⟩; exact ⟨i, hi, rfl⟩
  · rw [GoMap.length_eq_keys, ← List.toFinset_card_of_nodup h3,
      ← Finset.card_image_of_injective as.toFinset (prefix_append_injective fpgaAfuEnvPrefix)]
    congr 1
    ext k
    simp only [List.mem_toFinset, Finset.mem_image, h5 k]
    constructor
    · rintro ⟨i, hi, rfl⟩; exact ⟨i, hi, rfl⟩
    · rintro ⟨i, hi, rfl⟩; exact ⟨i, hi, rfl⟩
  · rw [← List.toFinset_card_of_nodup h1]
    congr 1
    ext i
    simp only [List.mem_toFinset, Finset.mem_union, h6 i]

theorem partition_sizes_equal (maps : EnvMaps) (rs as : List GoString)
    (hinv : PartitionInv maps rs as)
    (hr : maps.envSet.length = maps.regionEnv.length)
    (ha : maps.envSet.length = maps.afuEnv.length) :
    ∀ i, i ∈ rs ↔ i ∈ as := by
  obtain ⟨s1, s2, s3⟩ := partition_sizes maps rs as hinv
  rw [s1, s3] at hr
  rw [s2, s3] at ha
  have e1 : rs.toFinset = rs.toFinset ∪ as.toFinset :=
    Finset.eq_of_subset_of_card_le Finset.subset_union_left (le_of_eq hr)
  have e2 : as.toFinset = rs.toFinset ∪ as.toFinset :=
    Finset.eq_of_subset_of_card_le Finset.subset_union_right (le_of_eq ha)
  intro i
  have e3 : rs.toFinset = as.toFinset := e1.trans e2.symm
  rw [← List.mem_toFinset, ← List.mem_toFinset, e3]

theorem mem_pair {x a b : GoString} (h : x ∈ [a, b]) : x = a ∨ x = b := by
  simpa using h

/-! ## Normalization: lemmas -/

theorem lowerCaseRanges_closed : lowerCaseRanges.all caseRangeClosed = true := by
  decide!

theorem toNat_ofNat_of_valid (n : Nat) (h : n < 0xD800 ∨ (0xDFFF < n ∧ n < 0x110000)) :
    (Char.ofNat n).toNat = n := by
  have hv : n.isValidChar := h
  simp only [Char.ofNat, hv, dite_true]
  rfl

theorem char_eq_of_toNat_eq {c d : Char} (h : c.toNat = d.toNat) : c = d := by
  rw [← Char.ofNat_toNat c, ← Char.ofNat_toNat d, h]

theorem unicodeToLower_fixed (d : Char)
    (h : (d.toNat ≤ 0x7F ∧ ¬ (0x41 ≤ d.toNat ∧ d.toNat ≤ 0x5A)) ∨
      (0x7F < d.toNat ∧ lowerCaseRangeOf d.toNat = none)) :
    unicodeToLower d = d := by
  unfold unicodeToLower
  rcases h with ⟨h1, h2⟩ | ⟨h1, h2⟩
  · rw [if_pos h1, if_neg h2]
  · rw [if_neg (by omega), h2]

theorem lower_form_of_range (r : Nat × Nat × Nat × Nat) (n : Nat)
    (hr : r ∈ lowerCaseRanges) (hn : inCaseRange r n = true) :
    (r.2.2.2 + (n - r.1) < 0xD800 ∨
      (0xDFFF < r.2.2.2 + (n - r.1) ∧ r.2.2.2 + (n - r.1) < 0x110000)) ∧
    (0x5A < r.2.2.2 + (n - r.1) ∨ r.2.2.2 + (n - r.1) < 0x2D) ∧
    lowerCaseRangeOf (r.2.2.2 + (n - r.1)) = none := by
  have hclosed := List.all_eq_true.1 lowerCaseRanges_closed r hr
  simp only [caseRangeClosed, Bool.and_eq_true, Bool.or_eq_true, decide_eq_true_eq,
    List.all_eq_true] at hclosed
  obtain ⟨⟨hvalid, hascii⟩, hapart⟩ := hclosed
  simp only [inCaseRange, Bool.and_eq_true, decide_eq_true_eq, beq_iff_eq] at hn
  obtain ⟨⟨hlo, hhi⟩, hmod⟩ := hn
  have hle : n - r.1 ≤ r.2.1 - r.1 := Nat.sub_le_sub_right hhi _
  refine ⟨by omega, by omega, ?_⟩
  unfold lowerCaseRangeOf
  rw [List.find?_eq_none]
  intro r1 hr1
  have h1 := hapart r1 hr1
  simp only [caseRangesApart, Bool.or_eq_true, decide_eq_true_eq, List.all_eq_true,
    List.mem_range, Bool.not_eq_true'] at h1
  rcases h1 with (h1 | h1) | h1
  · simp only [inCaseRange, Bool.and_eq_true, decide_eq_true_eq, beq_iff_eq, not_and]
    intro h2 _
    omega
  · simp only [inCaseRange, Bool.and_eq_true, decide_eq_true_eq, beq_iff_eq, not_and]
    intro _ h2
    omega
  · have hj : (n - r.1) / r.2.2.1 < (r.2.1 - r.1) / r.2.2.1 + 1 :=
      Nat.lt_succ_of_le (Nat.div_le_div_right hle)
    have h2 := h1 _ hj
    rw [Nat.div_mul_cancel (Nat.dvd_of_mod_eq_zero hmod)] at h2
    rw [h2]
    decide

theorem unicodeToLower_cases (c : Char) :
    unicodeToLower c = c ∨
      ((unicodeToLower c).toNat ≠ 0x2D ∧
        ((unicodeToLower c).toNat ≤ 0x7F ∧
          ¬ (0x41 ≤ (unicodeToLower c).toNat ∧ (unicodeToLower c).toNat ≤ 0x5A) ∨
         0x7F < (unicodeToLower c).toNat ∧
          lowerCaseRangeOf (unicodeToLower c).toNat = none)) := by
  unfold unicodeToLower
  by_cases h1 : c.toNat ≤ 0x7F
  · rw [if_pos h1]
    by_cases h2 : 0x41 ≤ c.toNat ∧ c.toNat ≤ 0x5A
    · rw [if_pos h2]
      right
      rw [toNat_ofNat_of_valid _ (by omega)]
      omega
    · rw [if_neg h2]
      exact Or.inl rfl
  · rw [if_neg h1]
    cases hf : lowerCaseRangeOf c.toNat with
    | none => exact Or.inl rfl
    | some r =>
      right
      have hr : r ∈ lowerCaseRanges := List.mem_of_find?_eq_some hf
      have hn : inCaseRange r c.toNat = true :=
        @List.find?_some _ (fun r => inCaseRange r c.toNat) r lowerCaseRanges hf
      obtain ⟨hvalid, hascii, hnone⟩ := lower_form_of_range r c.toNat hr hn
      simp only
      rw [toNat_ofNat_of_valid _ hvalid]
      refine ⟨by omega, ?_⟩
      by_cases h3 : r.2.2.2 + (c.toNat - r.1) ≤ 0x7F
      · exact Or.inl ⟨h3, by omega⟩
      · exact Or.inr ⟨by omega, hnone⟩

theorem toLower_toLower (c : Char) : unicodeToLower (unicodeToLower c) = unicodeToLower c := by
  rcases unicodeToLower_cases c with h | ⟨_, h⟩
  · rw [h, h]
  · exact unicodeToLower_fixed _ h

theorem toLower_ne_hyphen (c : Char) (h : c ≠ '-') : unicodeToLower c ≠ '-' := by
  intro h1
  rcases unicodeToLower_cases c with h2 | ⟨h2, _⟩
  · exact h (h2.symm.trans h1)
  · rw [h1] at h2
    exact h2 rfl

theorem removeHyphens_cons_hyphen (x : GoString) : removeHyphens ('-' :: x) = removeHyphens x := by
  simp [removeHyphens]

theorem removeHyphens_cons_other (c : Char) (x : GoString) (h : c ≠ '-') :
    removeHyphens (c :: x) = c :: removeHyphens x := by
  simp [removeHyphens, h]

theorem canonize_nil : canonize [] = [] := rfl

theorem canonize_cons_hyphen (x : GoString) : canonize ('-' :: x) = canonize x := by
  simp [canonize, removeHyphens_cons_hyphen]

theorem canonize_cons_other (c : Char) (x : GoString) (h : c ≠ '-') :
    canonize (c :: x) = unicodeToLower c :: canonize x := by
  simp [canonize, removeHyphens_cons_other c x h, toLower]

theorem canonize_canonize (x : GoString) : canonize (canonize x) = canonize x := by
  induction x with
  | nil => rfl
  | cons c x ih =>
    by_cases h : c = '-'
    · subst h
      rw [canonize_cons_hyphen, ih]
    · rw [canonize_cons_other c x h, canonize_cons_other _ _ (toLower_ne_hyphen c h),
        toLower_toLower, ih]

theorem hyphen_not_mem_canonize (x : GoString) : '-' ∉ canonize x := by
  induction x with
  | nil => simp [canonize_nil]
  | cons c x ih =>
    by_cases h : c = '-'
    · subst h
      rw [canonize_cons_hyphen]; exact ih
    · rw [canonize_cons_other c x h]
      intro hm
      rcases List.mem_cons.1 hm with h1 | h1
      · exact toLower_ne_hyphen c h h1.symm
      · exact ih h1

theorem unicodeToLower_of_mem_canonize (x : GoString) :
    ∀ c ∈ canonize x, unicodeToLower c = c := by
  intro c hc
  simp only [canonize, toLower, List.mem_map] at hc
  obtain ⟨d, _, rfl⟩ := hc
  exact toLower_toLower d

theorem not_isUpper_of_fixed (c : Char) (h : unicodeToLower c = c) : c.isUpper = false := by
  rw [Bool.eq_false_iff]
  intro hu
  have h1 : 65 ≤ c.toNat ∧ c.toNat ≤ 90 := by
    simp only [Char.isUpper, Bool.and_eq_true, decide_eq_true_eq, ge_iff_le,
      UInt32.le_def] at hu
    exact hu
  have h2 := congrArg Char.toNat h
  unfold unicodeToLower at h2
  rw [if_pos (by omega), if_pos h1, toNat_ofNat_of_valid _ (by omega)] at h2
  omega

theorem canonize_eq_of_same {x y : GoString} (h : SameUpToHyphensAndCase x y) :
    canonize x = canonize y := by
  induction h with
  | nil => rfl
  | hyphenLeft _ ih => rw [canonize_cons_hyphen]; exact ih
  | hyphenRight _ ih => rw [canonize_cons_hyphen]; exact ih
  | @letter c d x y hcd _ ih =>
    by_cases hc : c = '-'
    · subst hc
      by_cases hd : d = '-'
      · subst hd
        rw [canonize_cons_hyphen, canonize_cons_hyphen]; exact ih
      · exact absurd hcd.symm (toLower_ne_hyphen d hd)
    · by_cases hd : d = '-'
      · subst hd
        exact absurd hcd (toLower_ne_hyphen c hc)
      · rw [canonize_cons_other c x hc, canonize_cons_other d y hd, hcd, ih]

theorem same_of_canonize_nil : ∀ y : GoString, canonize y = [] → SameUpToHyphensAndCase [] y
  | [], _ => .nil
  | d :: y, h => by
    by_cases hd : d = '-'
    · subst hd
      rw [canonize_cons_hyphen] at h
      exact .hyphenRight (same_of_canonize_nil y h)
    · rw [canonize_cons_other d y hd] at h
      exact absurd h (List.cons_ne_nil _ _)

theorem same_of_canonize_eq (x : GoString) :
    ∀ y : GoString, canonize x = canonize y → SameUpToHyphensAndCase x y := by
  induction x with
  | nil =>
    intro y h
    exact same_of_canonize_nil y (by rw [← h]; rfl)
  | cons c x ihx =>
    by_cases hc : c = '-'
    · subst hc
      intro y h
      rw [canonize_cons_hyphen] at h
      exact .hyphenLeft (ihx y h)
    · intro y
      induction y with
      | nil =>
        intro h
        rw [canonize_cons_other c x hc] at h
        exact absurd h (List.cons_ne_nil _ _)
      | cons d y ihy =>
        intro h
        by_cases hd : d = '-'
        · subst hd
          rw [canonize_cons_hyphen] at h
          exact .hyphenRight (ihy h)
        · rw [canonize_cons_other c x hc, canonize_cons_other d y hd] at h
          have h1 := List.cons.inj h
          exact .letter h1.1 (ihx y h1.2)

theorem produceLoop_canonical {σ : Type} (he : hookEnv) (w : World σ) (s : σ)
    (regionEnv afuEnv : GoMap) (bs : List GoString) :
    ∀ (devs : GoSet) (acc params : List fpgaParams),
      (∀ p ∈ acc, canonize p.region = p.region ∧ canonize p.afu = p.afu) →
      (produceLoop he w s regionEnv afuEnv bs devs acc).1 = .ok params →
      ∀ p ∈ params, canonize p.region = p.region ∧ canonize p.afu = p.afu := by
  induction bs with
  | nil =>
    intro devs acc params hacc h
    simp only [produceLoop, Except.ok.injEq] at h
    subst h
    exact hacc
  | cons b rest ih =>
    intro devs acc params hacc h
    simp only [produceLoop] at h
    rcases hf : findDevice he w s (canonize (regionEnv.get (fpgaRegionEnvPrefix ++ b)))
      (w.rangeOrder .devices devs) with ⟨r, evs⟩
    rw [hf] at h
    cases r with
    | error err => simp at h
    | ok found =>
      cases found with
      | none => simp at h
      | some d =>
        simp only at h
        refine ih _ _ _ ?_ h
        intro p hp
        rcases List.mem_append.1 hp with h1 | h1
        · exact hacc p h1
        · rw [List.mem_singleton.1 h1]
          exact ⟨canonize_canonize _, canonize_canonize _⟩

/-! ## Locating bitstreams and splitting keys: lemmas -/

theorem getBitStream_eq {σ : Type} (he : hookEnv) (w : World σ) (s : σ) (params : fpgaParams) :
    getBitStream he w s params =
      match w.stat s (bitStreamPathOf he params ".gbs".toList) with
      | .found =>
        (.ok (.opae { path := bitStreamPathOf he params ".gbs".toList, params := params }),
          [.stat (bitStreamPathOf he params ".gbs".toList)])
      | .failed err =>
        (.error (.statFailed (bitStreamPathOf he params ".gbs".toList) err),
          [.stat (bitStreamPathOf he params ".gbs".toList)])
      | .notExist =>
        match w.stat s (bitStreamPathOf he params ".aocx".toList) with
        | .found =>
          (.ok (.openCL { path := bitStreamPathOf he params ".aocx".toList, params := params }),
            [.stat (bitStreamPathOf he params ".gbs".toList),
             .stat (bitStreamPathOf he params ".aocx".toList)])
        | .failed err =>
          (.error (.statFailed (bitStreamPathOf he params ".aocx".toList) err),
            [.stat (bitStreamPathOf he params ".gbs".toList),
             .stat (bitStreamPathOf he params ".aocx".toList)])
        | .notExist =>
          (.error (.bitstreamNotFound params.region params.afu),
            [.stat (bitStreamPathOf he params ".gbs".toList),
             .stat (bitStreamPathOf he params ".aocx".toList)]) := by
  have hne : ¬ (".aocx".toList = ".gbs".toList) := by decide
  simp only [getBitStream, getBitStreamLoop, bitStreamPathOf]
  cases w.stat s (filepathJoin [he.bitStreamDir, params.region, params.afu ++ ".gbs".toList]) with
  | found => simp
  | failed err => simp
  | notExist =>
    cases w.stat s (filepathJoin [he.bitStreamDir, params.region, params.afu ++ ".aocx".toList]) with
    | found => simp [hne]
    | failed err => simp
    | notExist => simp

theorem envStrings_map_string (envs : List GoString) :
    envStrings (envs.map JSON.string) = .ok envs := by
  induction envs with
  | nil => rfl
  | cons env rest ih => simp [envStrings, ih]

theorem splitN_of_region_prefix (key : GoString)
    (h : hasPrefix key fpgaRegionEnvPrefix = true) :
    splitN '_' 3 key =
      ["FPGA".toList, "REGION".toList, key.drop fpgaRegionEnvPrefix.length] := by
  conv_lhs => rw [(hasPrefix_iff _ _).1 h]
  exact splitN_region _

theorem splitN_of_afu_prefix (key : GoString)
    (h : hasPrefix key fpgaAfuEnvPrefix = true) :
    splitN '_' 3 key =
      ["FPGA".toList, "AFU".toList, key.drop fpgaAfuEnvPrefix.length] := by
  conv_lhs => rw [(hasPrefix_iff _ _).1 h]
  exact splitN_afu _

/-! ## Decoded documents: lemmas -/

theorem checkGbsInfo_shaped (region afu : GoString) (content : JSONMap)
    (hshape : gbsInfoShaped content = true) :
    checkGbsInfo region afu content ≠ .error .runtimePanic ∧
    (content.lookup "afu-image".toList = none →
      checkGbsInfo region afu content =
        .error (.fieldNotFound region afu "afu-image".toList)) ∧
    (∀ afuImage, content.lookup "afu-image".toList = some (.object afuImage) →
      (afuImage.lookup "interface-uuid".toList = none →
        checkGbsInfo region afu content =
          .error (.fieldNotFound region afu "interface-uuid".toList)) ∧
      (afuImage.lookup "interface-uuid".toList ≠ none →
        afuImage.lookup "accelerator-clusters".toList = none →
        checkGbsInfo region afu content =
          .error (.fieldNotFound region afu "accelerator-clusters".toList)) ∧
      (∀ interfaceUUID, afuImage.lookup "interface-uuid".toList = some (.string interfaceUUID) →
        afuImage.lookup "accelerator-clusters".toList ≠ none →
        canonize interfaceUUID ≠ region →
        checkGbsInfo region afu content = .error (.regionMismatch region interfaceUUID)) ∧
      (∀ interfaceUUID firstCluster otherClusters,
        afuImage.lookup "interface-uuid".toList = some (.string interfaceUUID) →
        canonize interfaceUUID = region →
        afuImage.lookup "accelerator-clusters".toList =
          some (.array (.object firstCluster :: otherClusters)) →
        (firstCluster.lookup "accelerator-type-uuid".toList = none →
          checkGbsInfo region afu content =
            .error (.fieldNotFound region afu "accelerator-type-uuid".toList)) ∧
        (∀ acceleratorTypeUUID,
          firstCluster.lookup "accelerator-type-uuid".toList =
            some (.string acceleratorTypeUUID) →
          canonize acceleratorTypeUUID ≠ afu →
          checkGbsInfo region afu content =
            .error (.afuMismatch afu acceleratorTypeUUID)))) := by
  refine ⟨?_, ?_, ?_⟩
  · unfold gbsInfoShaped at hshape
    unfold checkGbsInfo
    split at hshape
    · next h => rw [h]; exact fun h => nomatch h
    · next afuImage h =>
      rw [h]
      simp only [Bool.and_eq_true] at hshape
      obtain ⟨h1, h2⟩ := hshape
      split at h1
      · next hi => simp only [hi]; exact fun h => nomatch h
      · next u hi =>
        simp only [hi]
        split at h2
        · next hc => simp only [hc]; exact fun h => nomatch h
        · next first rest hc =>
          simp only [hc]
          by_cases hm : canonize u = region
          · simp only [hm, ne_eq, not_true_eq_false, if_false]
            split at h2
            · next ht => simp only [ht]; exact fun h => nomatch h
            · next t ht =>
              simp only [ht]
              by_cases hm2 : canonize t = afu
              · simp only [hm2, not_true_eq_false, if_false]; exact fun h => nomatch h
              · simp only [hm2, not_false_eq_true, if_true]; exact fun h => nomatch h
            · exact absurd h2 (by decide)
          · simp only [ne_eq, hm, not_false_eq_true, if_true]; exact fun h => nomatch h
        · exact absurd h2 (by decide)
      · exact absurd h1 (by decide)
    · exact absurd hshape (by decide)
  · intro h
    simp only [checkGbsInfo, h]
  · intro afuImage himg
    refine ⟨?_, ?_, ?_, ?_⟩
    · intro h
      simp only [checkGbsInfo, himg, h]
    · intro h1 h2
      cases hi : afuImage.lookup "interface-uuid".toList with
      | none => exact absurd hi h1
      | some v => simp only [checkGbsInfo, himg, hi, h2]
    · intro u hi hc hm
      cases hcl : afuImage.lookup "accelerator-clusters".toList with
      | none => exact absurd hcl hc
      | some v => simp only [checkGbsInfo, himg, hi, hcl, ne_eq, hm, not_false_eq_true, if_true]
    · intro u first rest hi hm hc
      constructor
      · intro ht
        simp only [checkGbsInfo, himg, hi, hc, hm, ht, ne_eq, not_true_eq_false, if_false]
      · intro t ht hm2
        simp only [checkGbsInfo, himg, hi, hc, hm, ht, hm2, ne_eq, not_true_eq_false, if_false,
          not_false_eq_true, if_true]

theorem validate_eq_checkGbsInfo {σ : Type} (w : World σ) (s s1 : σ) (bitStream : opaeBitStream)
    (output : GoString) (content : JSONMap)
    (hrun : w.combinedOutput s packager ["gbs-info".toList, "--gbs".toList, bitStream.path] =
      ((output, none), s1))
    (hdecode : w.decodeJSONStream output = .ok content) :
    (bitStream.validate w s).1 =
      checkGbsInfo bitStream.params.region bitStream.params.afu content := by
  simp only [opaeBitStream.validate, hrun, hdecode]

/-! ## The orchestrator: claims C1, C2, C8 and C9 -/

/-- C1, at a failing input.  The claim: when `process` returns success, every
request of the list is verified, and a request whose device is programmed
already skips only its own programming.  The code: the resolver emits two
requests for the two devices; device 0 holds the function of the first
request, so line 359 returns `nil` from `process`; the only event is the read
of the `afu_id` file of device 0, and device 1 still holds `0000`, not the
function `f1f1` of the second request. -/
theorem process_returns_at_first_programmed_request :
    (produceFPGAParams mainEnv (demoWorld reversed) twoDeviceFiles twoDeviceRegionEnv
      twoDeviceAfuEnv ["0".toList, "1".toList] ["0".toList, "1".toList]).1 =
        .ok twoDeviceRequests ∧
    processParams mainEnv (demoWorld reversed) twoDeviceFiles twoDeviceRequests =
      (.ok (), twoDeviceFiles, [.readFile (afuIDFile "0".toList)]) ∧
    { region := "ccdd".toList, afu := "f1f1".toList, devNum := "1".toList } ∈
      twoDeviceRequests ∧
    (getProgrammedAfu mainEnv (demoWorld reversed) twoDeviceFiles "1".toList).1 =
      .ok "0000".toList ∧
    canonize "0000".toList ≠ "f1f1".toList := by
  decide

/-- C2, at a failing input.  The claim: the check after programming fails
exactly when the identity read again, normalized, differs from the requested
function.  The code: the request asks for `1234`; the image is validated and
programmed, the device then reports `12-34`, which normalizes to `1234`, and
line 382 compares it unnormalized and returns the verification error. -/
theorem verification_compares_unnormalized :
    (processParams mainEnv (demoWorld inOrder) scenarioFiles [scenarioRequest]).1 =
      .error (.programmedOther "12-34".toList "1234".toList) ∧
    (processParams mainEnv (demoWorld inOrder) scenarioFiles [scenarioRequest]).2.2 =
      [.readFile (afuIDFile "0".toList),
       .stat "/srv/intel.com/fpga/abcd/1234.gbs".toList,
       .command packager ["gbs-info".toList, "--gbs".toList,
         "/srv/intel.com/fpga/abcd/1234.gbs".toList],
       .command fpgaconf ["-s".toList, "0".toList, "/srv/intel.com/fpga/abcd/1234.gbs".toList],
       .readFile (afuIDFile "0".toList)] ∧
    canonize "12-34".toList = scenarioRequest.afu := by
  decide

/-- C8.  Idempotency: when the loop of `process` reaches a request (the
requests before it were programmed and verified, leaving the state `s1` and
the events `evs1`) and the device reports a function that normalizes to the
requested one, the body returns success after the single read of the `afu_id`
file: `process` returns success with no further event, so no bitstream is
looked for, validated or programmed for the request. -/
theorem idempotent_skip_invokes_nothing {σ : Type} (he : hookEnv) (w : World σ)
    (pre post : List fpgaParams) (params : fpgaParams) (s0 s1 : σ) (evs1 : List Event)
    (programmedAfu : GoString)
    (hpre : processLoop he w s0 pre = (.next, s1, evs1))
    (hread : (getProgrammedAfu he w s1 params.devNum).1 = .ok programmedAfu)
    (hsame : canonize programmedAfu = params.afu) :
    processRequest he w s1 params =
        (.ret (.ok ()), s1, [.readFile (sprintf he.afuIDTemplate [params.devNum, params.devNum])]) ∧
    processParams he w s0 (pre ++ params :: post) =
        (.ok (), s1,
          evs1 ++ [.readFile (sprintf he.afuIDTemplate [params.devNum, params.devNum])]) ∧
    ∀ e ∈ (processRequest he w s1 params).2.2,
      e.isStat = false ∧ e.isCommand = false ∧ e.isProgram = false := by
  have hreq : processRequest he w s1 params =
      (.ret (.ok ()), s1, [.readFile (sprintf he.afuIDTemplate [params.devNum, params.devNum])]) := by
    have hev := getProgrammedAfu_events he w s1 params.devNum
    rcases hg : getProgrammedAfu he w s1 params.devNum with ⟨r, evs⟩
    rw [hg] at hread hev
    simp only at hread hev
    subst hread hev
    simp [processRequest, hg, hsame]
  refine ⟨hreq, ?_, ?_⟩
  · rw [processParams_append he w pre _ s0 s1 evs1 hpre,
      processParams_cons_ret he w params post s1 s1 _ _ hreq]
  · rw [hreq]
    intro e hmem
    simp only [List.mem_singleton] at hmem
    subst hmem
    exact ⟨rfl, rfl, rfl⟩

/-- Witness of C8: in the batch, after the request of the scenario is
programmed, the request for device 1 finds its function programmed, and
`process` returns success without touching the request that follows. -/
theorem idempotent_skip_invokes_nothing_witness :
    processParams mainEnv (demoWorld inOrder) batchFiles
        ([scenarioRequest] ++ requestProgrammed :: [requestBrokenImage]) =
      (.ok (), batchState,
        batchEvents ++ [.readFile (sprintf mainEnv.afuIDTemplate
          [requestProgrammed.devNum, requestProgrammed.devNum])]) :=
  (idempotent_skip_invokes_nothing mainEnv (demoWorld inOrder) [scenarioRequest]
    [requestBrokenImage] requestProgrammed batchFiles batchState batchEvents "f1f1".toList
    (by decide) (by decide) (by decide)).2.1

/-- C9.  Fail-fast: when the loop of `process` reaches a request that is to be
programmed and locating, validating or programming fails, `process` returns
that error; the events of the run end with those of the failing step,
whatever requests follow: (1) when no bitstream is located, no command is run
for the request; (2) when `validate` fails, no programming tool is run;
(3) when `program` fails, that one command is the last event. -/
theorem fail_fast {σ : Type} (he : hookEnv) (w : World σ)
    (pre post : List fpgaParams) (params : fpgaParams) (s0 s1 : σ) (evs1 : List Event)
    (programmedAfu : GoString)
    (hpre : processLoop he w s0 pre = (.next, s1, evs1))
    (hread : (getProgrammedAfu he w s1 params.devNum).1 = .ok programmedAfu)
    (hother : canonize programmedAfu ≠ params.afu) :
    (∀ err evsL, getBitStream he w s1 params = (.error err, evsL) →
      processParams he w s0 (pre ++ params :: post) =
        (.error err, s1,
          evs1 ++ ((getProgrammedAfu he w s1 params.devNum).2 ++ evsL)) ∧
      ∀ e ∈ (getProgrammedAfu he w s1 params.devNum).2 ++ evsL, e.isCommand = false) ∧
    (∀ bitStream evsL err s2 evsV, getBitStream he w s1 params = (.ok bitStream, evsL) →
      bitStream.validate w s1 = (.error err, s2, evsV) →
      processParams he w s0 (pre ++ params :: post) =
        (.error err, s2,
          evs1 ++ ((getProgrammedAfu he w s1 params.devNum).2 ++ evsL ++ evsV)) ∧
      ∀ e ∈ (getProgrammedAfu he w s1 params.devNum).2 ++ evsL ++ evsV, e.isProgram = false) ∧
    (∀ bitStream evsL s2 evsV err s3 evsP, getBitStream he w s1 params = (.ok bitStream, evsL) →
      bitStream.validate w s1 = (.ok (), s2, evsV) →
      bitStream.program w s2 = (.error err, s3, evsP) →
      processParams he w s0 (pre ++ params :: post) =
        (.error err, s3,
          evs1 ++ ((getProgrammedAfu he w s1 params.devNum).2 ++ evsL ++ evsV ++ evsP)) ∧
      (∀ e ∈ (getProgrammedAfu he w s1 params.devNum).2 ++ evsL ++ evsV, e.isProgram = false) ∧
      ∃ cmd args, evsP = [.command cmd args]) := by
  have hev := getProgrammedAfu_events he w s1 params.devNum
  rcases hg : getProgrammedAfu he w s1 params.devNum with ⟨r, evs0⟩
  rw [hg] at hread hev
  simp only at hread hev
  subst hread
  have hevs0 : ∀ e ∈ evs0, e.isCommand = false ∧ e.isProgram = false := by
    intro e hmem
    rw [hev] at hmem
    simp only [List.mem_singleton] at hmem
    subst hmem
    exact ⟨rfl, rfl⟩
  refine ⟨?_, ?_, ?_⟩
  · intro err evsL hL
    constructor
    · rw [processParams_append he w pre _ s0 s1 evs1 hpre,
        processParams_cons_ret he w params post s1 s1 (.error err) (evs0 ++ evsL)
          (by simp [processRequest, hg, hother, hL])]
    · intro e hmem
      rcases List.mem_append.1 hmem with h | h
      · exact (hevs0 e h).1
      · have := getBitStream_events he w s1 params e (by rw [hL]; exact h)
        exact (isStat_not_command e this).1
  · intro bitStream evsL err s2 evsV hL hV
    constructor
    · rw [processParams_append he w pre _ s0 s1 evs1 hpre,
        processParams_cons_ret he w params post s1 s2 (.error err) (evs0 ++ evsL ++ evsV)
          (by simp [processRequest, hg, hother, hL, hV])]
    · intro e hmem
      rcases List.mem_append.1 hmem with h | h
      · rcases List.mem_append.1 h with h | h
        · exact (hevs0 e h).2
        · have := getBitStream_events he w s1 params e (by rw [hL]; exact h)
          exact (isStat_not_command e this).2
      · exact validate_events w s1 bitStream e (by rw [hV]; exact h)
  · intro bitStream evsL s2 evsV err s3 evsP hL hV hP
    refine ⟨?_, ?_, ?_⟩
    · rw [processParams_append he w pre _ s0 s1 evs1 hpre,
        processParams_cons_ret he w params post s1 s3 (.error err)
          (evs0 ++ evsL ++ evsV ++ evsP)
          (by simp [processRequest, hg, hother, hL, hV, hP])]
    · intro e hmem
      rcases List.mem_append.1 hmem with h | h
      · rcases List.mem_append.1 h with h | h
        · exact (hevs0 e h).2
        · have := getBitStream_events he w s1 params e (by rw [hL]; exact h)
          exact (isStat_not_command e this).2
      · exact validate_events w s1 bitStream e (by rw [hV]; exact h)
    · obtain ⟨cmd, args, hc, _⟩ := program_events w s2 bitStream
      rw [hP] at hc
      exact ⟨cmd, args, hc⟩

/-- Witness of C9: in the batch, after the request of the scenario is
programmed, a request without an image, a request with an image of another
region and a request with an image the tool rejects each end the run with
their error, before the request that follows. -/
theorem fail_fast_witness :
    processParams mainEnv (demoWorld inOrder) batchFiles
        ([scenarioRequest] ++ requestWithoutImage :: [requestProgrammed]) =
      (.error (.bitstreamNotFound "ccdd".toList "f5f5".toList), batchState,
        batchEvents ++
          ((getProgrammedAfu mainEnv (demoWorld inOrder) batchState requestWithoutImage.devNum).2 ++
            [.stat "/srv/intel.com/fpga/ccdd/f5f5.gbs".toList,
             .stat "/srv/intel.com/fpga/ccdd/f5f5.aocx".toList])) ∧
    processParams mainEnv (demoWorld inOrder) batchFiles
        ([scenarioRequest] ++ requestWrongImage :: [requestProgrammed]) =
      (.error (.regionMismatch "ccdd".toList "ffff".toList), batchState,
        batchEvents ++
          ((getProgrammedAfu mainEnv (demoWorld inOrder) batchState requestWrongImage.devNum).2 ++
            [.stat "/srv/intel.com/fpga/ccdd/f3f3.gbs".toList] ++
            [.command packager ["gbs-info".toList, "--gbs".toList,
              "/srv/intel.com/fpga/ccdd/f3f3.gbs".toList]])) ∧
    processParams mainEnv (demoWorld inOrder) batchFiles
        ([scenarioRequest] ++ requestBrokenImage :: [requestProgrammed]) =
      (.error (.programFailed "f4f4".toList "3".toList "ccdd".toList "bad image".toList
          { text := "exit status 1".toList }), batchState,
        batchEvents ++
          ((getProgrammedAfu mainEnv (demoWorld inOrder) batchState requestBrokenImage.devNum).2 ++
            [.stat "/srv/intel.com/fpga/ccdd/f4f4.gbs".toList,
             .stat "/srv/intel.com/fpga/ccdd/f4f4.aocx".toList] ++ [] ++
            [.command aocl ["program".toList, "acl3".toList,
              "/srv/intel.com/fpga/ccdd/f4f4.aocx".toList]])) :=
  ⟨((fail_fast mainEnv (demoWorld inOrder) [scenarioRequest] [requestProgrammed]
      requestWithoutImage batchFiles batchState batchEvents "0000".toList
      (by decide) (by decide) (by decide)).1 _ _ (by decide)).1,
   ((fail_fast mainEnv (demoWorld inOrder) [scenarioRequest] [requestProgrammed]
      requestWrongImage batchFiles batchState batchEvents "0000".toList
      (by decide) (by decide) (by decide)).2.1
      (.opae { path := "/srv/intel.com/fpga/ccdd/f3f3.gbs".toList, params := requestWrongImage })
      _ _ _ _ (by decide) (by decide)).1,
   ((fail_fast mainEnv (demoWorld inOrder) [scenarioRequest] [requestProgrammed]
      requestBrokenImage batchFiles batchState batchEvents "0000".toList
      (by decide) (by decide) (by decide)).2.2
      (.openCL { path := "/srv/intel.com/fpga/ccdd/f4f4.aocx".toList,
                 params := requestBrokenImage })
      _ batchState _ _ _ _ (by decide) (by decide) (by decide)).1⟩

/-! ## The resolver: claims C3 to C7 -/

/-- C3 as stated, refuted at a concrete input.  Index set, region map, afu
map and device set have two entries each, both devices report an interface
identity, and the region declared under either index normalizes to the
interface identity of exactly one device: device 0, for both indices.  The
first index visited consumes device 0 and `produceFPGAParams` fails for the
second one, in either visiting order. -/
theorem two_indices_one_device_fail :
    (demoWorld inOrder).Lawful ∧
    CountsPass sharedRegionEnv twoDeviceAfuEnv ["0".toList, "1".toList]
      ["0".toList, "1".toList] ∧
    Readable mainEnv (demoWorld inOrder) twoDeviceFiles ["0".toList, "1".toList] ∧
    MatchesOneDevice mainEnv (demoWorld inOrder) twoDeviceFiles sharedRegionEnv
      ["0".toList, "1".toList] ["0".toList, "1".toList] ∧
    (produceFPGAParams mainEnv (demoWorld inOrder) twoDeviceFiles sharedRegionEnv
      twoDeviceAfuEnv ["0".toList, "1".toList] ["0".toList, "1".toList]).1 =
        .error (.noDevice "aabb".toList) ∧
    (produceFPGAParams mainEnv (demoWorld reversed) twoDeviceFiles sharedRegionEnv
      twoDeviceAfuEnv ["0".toList, "1".toList] ["0".toList, "1".toList]).1 =
        .error (.noDevice "aabb".toList) := by
  refine ⟨demoWorld_lawful_inOrder, by unfold CountsPass; decide, ?_, ?_, by decide, by decide⟩
  · intro d hd
    rcases mem_pair hd with rfl | rfl
    · exact ⟨"AABB".toList, by decide⟩
    · exact ⟨"ccdd".toList, by decide⟩
  · intro b hb
    refine ⟨"0".toList, ⟨by decide, ?_⟩, ?_⟩
    · rcases mem_pair hb with rfl | rfl <;> decide
    · rintro d ⟨hd, hdeq⟩
      rcases mem_pair hd with rfl | rfl
      · rfl
      · exfalso
        revert hdeq
        rcases mem_pair hb with rfl | rfl <;> decide

/-- C3, amended.  When the count checks pass, every device reports an
interface identity, the region declared under each index normalizes to the
normalized interface identity of exactly one device, and no two indices
declare regions with the same normalization, `produceFPGAParams` succeeds in
every visiting order: it emits one request per index, in the order the
indices are visited, and no device number twice. -/
theorem resolution_succeeds_on_matching_input {σ : Type} (he : hookEnv) (w : World σ) (s : σ)
    (regionEnv afuEnv : GoMap) (envSet devSet : GoSet)
    (hlaw : w.Lawful) (henv : envSet.Nodup) (hdev : devSet.Nodup)
    (hcount : CountsPass regionEnv afuEnv envSet devSet)
    (hread : Readable he w s devSet)
    (hmatch : MatchesOneDevice he w s regionEnv envSet devSet)
    (hinj : ∀ b ∈ envSet, ∀ b1 ∈ envSet,
      declaredRegion regionEnv b = declaredRegion regionEnv b1 → b = b1) :
    ∃ params, (produceFPGAParams he w s regionEnv afuEnv envSet devSet).1 = .ok params ∧
      params.length = envSet.length ∧
      (params.map fpgaParams.devNum).Nodup ∧
      List.Forall₂ (Binds he w s regionEnv afuEnv) (w.rangeOrder .bitstreams envSet) params := by
  have hperm := regions_perm_identities he w s regionEnv envSet devSet henv hcount.2.2.2.symm
    (fun b hb => (hmatch b hb).exists) hinj
  have hok := (produce_isOk_iff he w s regionEnv afuEnv envSet devSet hlaw hcount hread).1.2 hperm
  rcases hr : (produceFPGAParams he w s regionEnv afuEnv envSet devSet).1 with err | params
  · rw [hr] at hok
    simp [Result.isOk] at hok
  · obtain ⟨hall, hlen, hp⟩ :=
      produce_ok_facts he w s regionEnv afuEnv envSet devSet params hlaw hr
    exact ⟨params, rfl, hlen, hp.nodup_iff.2 hdev, hall⟩

/-- Witness of C3, the scenario of the claim: `FPGA_REGION_0=AB-CD`,
`FPGA_AFU_0=12-34`, device 0 with the interface identity `abcd`; the single
request is region `abcd`, function `1234`, device 0. -/
theorem resolution_succeeds_on_matching_input_witness :
    (produceFPGAParams mainEnv (demoWorld inOrder) scenarioFiles scenarioRegionEnv
      scenarioAfuEnv ["0".toList] ["0".toList]).1 =
        .ok [{ region := "abcd".toList, afu := "1234".toList, devNum := "0".toList }] ∧
    ∃ params, (produceFPGAParams mainEnv (demoWorld inOrder) scenarioFiles scenarioRegionEnv
        scenarioAfuEnv ["0".toList] ["0".toList]).1 = .ok params ∧
      params.length = ["0".toList].length ∧
      (params.map fpgaParams.devNum).Nodup ∧
      List.Forall₂ (Binds mainEnv (demoWorld inOrder) scenarioFiles scenarioRegionEnv
        scenarioAfuEnv) ((demoWorld inOrder).rangeOrder .bitstreams ["0".toList]) params :=
  ⟨by decide,
   resolution_succeeds_on_matching_input mainEnv (demoWorld inOrder) scenarioFiles
    scenarioRegionEnv scenarioAfuEnv ["0".toList] ["0".toList]
    demoWorld_lawful_inOrder (by decide) (by decide) (by unfold CountsPass; decide)
    (by
      intro d hd
      rw [List.mem_singleton.1 hd]
      exact ⟨"abcd".toList, by decide⟩)
    (by
      intro b hb
      rw [List.mem_singleton.1 hb]
      refine ⟨"0".toList, ⟨by decide, by decide⟩, ?_⟩
      rintro d ⟨hd, _⟩
      exact List.mem_singleton.1 hd)
    (by
      intro b hb b1 hb1 _
      rw [List.mem_singleton.1 hb, List.mem_singleton.1 hb1])⟩

/-- C4.  When `produceFPGAParams` succeeds on a device set, in any visiting
order: the device numbers of the requests are pairwise distinct and are the
device set, every device is bound by exactly one request, and each request
carries the normalized region and function declared under one index, its
region being the normalized interface identity the hardware reports for its
device. -/
theorem requests_bind_devices_one_to_one {σ : Type} (he : hookEnv) (w : World σ) (s : σ)
    (regionEnv afuEnv : GoMap) (envSet devSet : GoSet) (params : List fpgaParams)
    (hlaw : w.Lawful) (hdev : devSet.Nodup)
    (hok : (produceFPGAParams he w s regionEnv afuEnv envSet devSet).1 = .ok params) :
    (params.map fpgaParams.devNum).Nodup ∧
    (params.map fpgaParams.devNum).Perm devSet ∧
    (∀ d ∈ devSet, ∃! p, p ∈ params ∧ p.devNum = d) ∧
    List.Forall₂ (Binds he w s regionEnv afuEnv) (w.rangeOrder .bitstreams envSet) params ∧
    (∀ p ∈ params, ∃ b ∈ envSet,
      p.region = declaredRegion regionEnv b ∧ p.afu = declaredAfu afuEnv b ∧
      ∃ iID, (getInterfaceID he w s p.devNum).1 = .ok iID ∧ p.region = canonize iID) := by
  obtain ⟨hall, _, hperm⟩ := produce_ok_facts he w s regionEnv afuEnv envSet devSet params hlaw hok
  have hnd : (params.map fpgaParams.devNum).Nodup := hperm.nodup_iff.2 hdev
  refine ⟨hnd, hperm, ?_, hall, ?_⟩
  · intro d hd
    obtain ⟨p, hp, hpd⟩ := List.mem_map.1 (hperm.mem_iff.2 hd)
    refine ⟨p, ⟨hp, hpd⟩, ?_⟩
    rintro q ⟨hq, hqd⟩
    exact List.inj_on_of_nodup_map hnd hq hp (hqd.trans hpd.symm)
  · intro p hp
    obtain ⟨b, hb, hbind⟩ := forall₂_exists_left hall p hp
    exact ⟨b, (hlaw .bitstreams envSet).mem_iff.1 hb, hbind⟩

/-- Witness of C4: the two devices, with the indices and the devices visited
in reverse; the device numbers of the two requests are the device set. -/
theorem requests_bind_devices_one_to_one_witness :
    (twoDeviceRequests.map fpgaParams.devNum).Nodup ∧
    (twoDeviceRequests.map fpgaParams.devNum).Perm ["0".toList, "1".toList] :=
  have h := requests_bind_devices_one_to_one mainEnv (demoWorld reversed) twoDeviceFiles
    twoDeviceRegionEnv twoDeviceAfuEnv ["0".toList, "1".toList] ["0".toList, "1".toList]
    twoDeviceRequests demoWorld_lawful_reversed (by decide) (by decide)
  ⟨h.1, h.2.1⟩

/-- C5.  Matching is index-blind: when the count checks pass and every device
reports an interface identity, `produceFPGAParams` succeeds exactly when the
bag of the normalized declared regions is the bag of the normalized interface
identities of the devices, that is, when the devices can be listed so that each
index faces a device of its region; otherwise it fails with the error of
line 273, and no request.  Whether it succeeds is the same in every visiting
order. -/
theorem matching_is_index_blind {σ : Type} (he : hookEnv) (w : World σ) (s : σ)
    (regionEnv afuEnv : GoMap) (envSet devSet : GoSet)
    (hlaw : w.Lawful) (hcount : CountsPass regionEnv afuEnv envSet devSet)
    (hread : Readable he w s devSet) :
    ((produceFPGAParams he w s regionEnv afuEnv envSet devSet).1.isOk = true ↔
      (envSet.map (declaredRegion regionEnv)).Perm
        (devSet.map (fun d => canonize (interfaceIDOf he w s d)))) ∧
    ((produceFPGAParams he w s regionEnv afuEnv envSet devSet).1.isOk = true ↔
      ∃ pairing : List GoString, pairing.Perm devSet ∧
        List.Forall₂ (fun b d => declaredRegion regionEnv b = canonize (interfaceIDOf he w s d))
          envSet pairing) ∧
    ((produceFPGAParams he w s regionEnv afuEnv envSet devSet).1.isOk = false →
      ∃ interfaceID, (produceFPGAParams he w s regionEnv afuEnv envSet devSet).1 =
        .error (.noDevice interfaceID)) ∧
    (∀ w1 : World σ, w1.Lawful → w1.readFile = w.readFile →
      (produceFPGAParams he w1 s regionEnv afuEnv envSet devSet).1.isOk =
        (produceFPGAParams he w s regionEnv afuEnv envSet devSet).1.isOk) := by
  obtain ⟨h1, h2⟩ := produce_isOk_iff he w s regionEnv afuEnv envSet devSet hlaw hcount hread
  refine ⟨h1, ?_, h2, ?_⟩
  · rw [h1]
    exact perm_map_iff_pairing _ _ envSet devSet
  · intro w1 hlaw1 hrf
    have hid : ∀ d, getInterfaceID he w1 s d = getInterfaceID he w s d :=
      getInterfaceID_congr he w w1 s hrf
    have hread1 : Readable he w1 s devSet := by
      intro d hd
      rw [hid d]
      exact hread d hd
    have h3 := (produce_isOk_iff he w1 s regionEnv afuEnv envSet devSet hlaw1 hcount hread1).1
    have hio : ∀ d, interfaceIDOf he w1 s d = interfaceIDOf he w s d := by
      intro d
      simp only [interfaceIDOf, hid d]
    simp only [hio] at h3
    rw [Bool.eq_iff_iff, h3, h1]

/-- Witness of C5: for the two devices, success is the same in the reversed
visiting order as in the order of the lists, and it is the equality of the two
bags. -/
theorem matching_is_index_blind_witness :
    ((produceFPGAParams mainEnv (demoWorld inOrder) twoDeviceFiles twoDeviceRegionEnv
        twoDeviceAfuEnv ["0".toList, "1".toList] ["0".toList, "1".toList]).1.isOk = true ↔
      (["0".toList, "1".toList].map (declaredRegion twoDeviceRegionEnv)).Perm
        (["0".toList, "1".toList].map
          (fun d => canonize (interfaceIDOf mainEnv (demoWorld inOrder) twoDeviceFiles d)))) ∧
    (produceFPGAParams mainEnv (demoWorld reversed) twoDeviceFiles twoDeviceRegionEnv
        twoDeviceAfuEnv ["0".toList, "1".toList] ["0".toList, "1".toList]).1.isOk =
      (produceFPGAParams mainEnv (demoWorld inOrder) twoDeviceFiles twoDeviceRegionEnv
        twoDeviceAfuEnv ["0".toList, "1".toList] ["0".toList, "1".toList]).1.isOk :=
  have h := matching_is_index_blind mainEnv (demoWorld inOrder) twoDeviceFiles
    twoDeviceRegionEnv twoDeviceAfuEnv ["0".toList, "1".toList] ["0".toList, "1".toList]
    demoWorld_lawful_inOrder (by unfold CountsPass; decide)
    (by
      intro d hd
      rcases mem_pair hd with rfl | rfl
      · exact ⟨"AABB".toList, by decide⟩
      · exact ⟨"ccdd".toList, by decide⟩)
  ⟨h.1, h.2.2.2 (demoWorld reversed) demoWorld_lawful_reversed rfl⟩

/-- C6.  When the index set is empty, or its size differs from the size of
the region map, of the afu map or of the device set, `produceFPGAParams`
returns one of the errors of lines 237, 241 and 245, with no request and
without reading any file. -/
theorem count_mismatch_fails {σ : Type} (he : hookEnv) (w : World σ) (s : σ)
    (regionEnv afuEnv : GoMap) (envSet devSet : GoSet)
    (h : envSet.length = 0 ∨ envSet.length ≠ regionEnv.length ∨
      envSet.length ≠ afuEnv.length ∨ envSet.length ≠ devSet.length) :
    ∃ err, produceFPGAParams he w s regionEnv afuEnv envSet devSet = (.error err, []) ∧
      (err = .noEnvironment ∨ err = .environmentIncorrect ∨ err = .devicesMismatch) := by
  unfold produceFPGAParams
  by_cases h0 : envSet.length = 0
  · exact ⟨_, by rw [if_pos h0], Or.inl rfl⟩
  · rw [if_neg h0]
    by_cases h1 : envSet.length ≠ regionEnv.length ∨ envSet.length ≠ afuEnv.length
    · exact ⟨_, by rw [if_pos h1], Or.inr (Or.inl rfl)⟩
    · rw [if_neg h1]
      have h2 : devSet.length ≠ envSet.length := by
        rcases h with h | h | h | h
        · exact absurd h h0
        · exact absurd (Or.inl h) h1
        · exact absurd (Or.inr h) h1
        · exact fun e => h e.symm
      exact ⟨_, by rw [if_pos h2], Or.inr (Or.inr rfl)⟩

/-- Witness of C6: the scenario with a second device attached. -/
theorem count_mismatch_fails_witness :
    ∃ err, produceFPGAParams mainEnv (demoWorld inOrder) scenarioFiles scenarioRegionEnv
        scenarioAfuEnv ["0".toList] ["0".toList, "1".toList] = (.error err, []) ∧
      (err = .noEnvironment ∨ err = .environmentIncorrect ∨ err = .devicesMismatch) :=
  count_mismatch_fails mainEnv (demoWorld inOrder) scenarioFiles scenarioRegionEnv
    scenarioAfuEnv ["0".toList] ["0".toList, "1".toList] (by decide)

/-- C7.  For declarations `KEY=VALUE`: when the indices of the declarations
`FPGA_REGION_<idx>` and those of the declarations `FPGA_AFU_<idx>` are not the
same set, the partition step followed by `produceFPGAParams` fails with the
error of line 241 and no request; and the partition step succeeds with maps
such that, when the index set has the size of the region map and of the afu
map, every index has a region declaration and an afu declaration. -/
theorem unequal_index_sets_fail {σ : Type} (he : hookEnv) (w : World σ) (s : σ)
    (envs : List GoString) (devSet : GoSet) (hkv : ∀ env ∈ envs, '=' ∈ env) :
    (¬ (∀ i, i ∈ regionIndices envs ↔ i ∈ afuIndices envs) →
      resolveEnv he w s envs devSet = (.error .environmentIncorrect, [])) ∧
    (∃ maps, partitionEnv envs = .ok maps ∧
      (maps.envSet.length = maps.regionEnv.length → maps.envSet.length = maps.afuEnv.length →
        ∀ i ∈ maps.envSet, fpgaRegionEnvPrefix ++ i ∈ maps.regionEnv.keys ∧
          fpgaAfuEnvPrefix ++ i ∈ maps.afuEnv.keys)) := by
  obtain ⟨maps, hpart, hinv⟩ := partitionEnv_inv envs hkv
  constructor
  · intro hne
    have hsz : maps.envSet.length ≠ maps.regionEnv.length ∨
        maps.envSet.length ≠ maps.afuEnv.length := by
      by_contra hcon
      rw [not_or, not_not, not_not] at hcon
      exact hne (partition_sizes_equal maps _ _ hinv hcon.1 hcon.2)
    have h0 : maps.envSet.length ≠ 0 := by
      intro h0
      have hnil : maps.envSet = [] := List.length_eq_zero.1 h0
      apply hne
      intro i
      have h6 := hinv.2.2.2.2.2 i
      rw [hnil] at h6
      simp only [List.not_mem_nil, false_iff, not_or] at h6
      exact ⟨fun h => absurd h h6.1, fun h => absurd h h6.2⟩
    simp only [resolveEnv, hpart, produceFPGAParams]
    rw [if_neg h0, if_pos hsz]
  · refine ⟨maps, hpart, ?_⟩
    intro hr ha i hi
    have heq := partition_sizes_equal maps _ _ hinv hr ha
    obtain ⟨_, _, _, h4, h5, h6⟩ := hinv
    have hor := (h6 i).1 hi
    have hri : i ∈ regionIndices envs := by
      rcases hor with h | h
      · exact h
      · exact (heq i).2 h
    exact ⟨(h4 _).2 ⟨i, hri, rfl⟩, (h5 _).2 ⟨i, (heq i).1 hri, rfl⟩⟩

/-- Witness of C7: a region under index 0 and a function under index 1. -/
theorem unequal_index_sets_fail_witness :
    resolveEnv mainEnv (demoWorld inOrder) scenarioFiles unpairedEnv ["0".toList, "1".toList] =
      (.error .environmentIncorrect, []) :=
  (unequal_index_sets_fail mainEnv (demoWorld inOrder) scenarioFiles unpairedEnv
    ["0".toList, "1".toList] (by decide)).1
    (fun h => absurd ((h "0".toList).1 (by decide)) (by decide))

/-! ## Bitstreams: claim C10 -/

/-- C10.  When the output of the inspection tool decodes to a document with
an `afu-image` section holding a string `interface-uuid` and a list
`accelerator-clusters` whose first entry holds a string
`accelerator-type-uuid`, `opaeBitStream.validate` returns `nil` exactly when
the normalized `interface-uuid` is the region of the request and the
normalized `accelerator-type-uuid` of the first entry is its function,
whatever the other entries are. -/
theorem validate_ok_iff {σ : Type} (w : World σ) (s s1 : σ) (bitStream : opaeBitStream)
    (output : GoString) (content afuImage firstCluster : JSONMap) (otherClusters : List JSON)
    (interfaceUUID acceleratorTypeUUID : GoString)
    (hrun : w.combinedOutput s packager ["gbs-info".toList, "--gbs".toList, bitStream.path] =
      ((output, none), s1))
    (hdecode : w.decodeJSONStream output = .ok content)
    (himage : content.lookup "afu-image".toList = some (.object afuImage))
    (hiface : afuImage.lookup "interface-uuid".toList = some (.string interfaceUUID))
    (hclusters : afuImage.lookup "accelerator-clusters".toList =
      some (.array (.object firstCluster :: otherClusters)))
    (htype : firstCluster.lookup "accelerator-type-uuid".toList =
      some (.string acceleratorTypeUUID)) :
    (bitStream.validate w s).1 = .ok () ↔
      canonize interfaceUUID = bitStream.params.region ∧
      canonize acceleratorTypeUUID = bitStream.params.afu := by
  simp only [opaeBitStream.validate, hrun, hdecode, checkGbsInfo, himage, hiface, hclusters,
    htype]
  by_cases h1 : canonize interfaceUUID = bitStream.params.region
  · by_cases h2 : canonize acceleratorTypeUUID = bitStream.params.afu
    · simp [h1, h2]
    · simp [h1, h2]
  · simp [h1]

/-- Witness of C10: the image of the scenario, whose identities are `AB-CD`
and `12-34`. -/
theorem validate_ok_iff_witness :
    (scenarioBitStream.validate (demoWorld inOrder) scenarioFiles).1 = .ok () ↔
      canonize "AB-CD".toList = scenarioBitStream.params.region ∧
      canonize "12-34".toList = scenarioBitStream.params.afu :=
  validate_ok_iff (demoWorld inOrder) scenarioFiles scenarioFiles scenarioBitStream
    "AB-CD/12-34".toList
    [("afu-image".toList, .object
      [("interface-uuid".toList, .string "AB-CD".toList),
       ("accelerator-clusters".toList,
          .array [.object [("accelerator-type-uuid".toList, .string "12-34".toList)]])])]
    [("interface-uuid".toList, .string "AB-CD".toList),
     ("accelerator-clusters".toList,
        .array [.object [("accelerator-type-uuid".toList, .string "12-34".toList)]])]
    [("accelerator-type-uuid".toList, .string "12-34".toList)] []
    "AB-CD".toList "12-34".toList (by decide) rfl rfl rfl rfl rfl

/-! ## Bitstreams: claims C11 and C13 -/

/-- C11 as stated, refuted at two concrete outputs of the inspection tool.
With an empty list `accelerator-clusters` (and a matching `interface-uuid`),
the index 0 of line 115 is out of range; with a string as `afu-image`, the
type assertion of line 101 fails.  In both cases `opaeBitStream.validate`
panics instead of returning a validation error. -/
theorem validate_panics_on_unexpected_shape :
    (scenarioBitStream.validate
      (tableWorld [("AB-CD/12-34".toList, emptyClustersDocument)]) scenarioFiles).1 =
        .error .runtimePanic ∧
    (scenarioBitStream.validate
      (tableWorld [("AB-CD/12-34".toList, stringImageDocument)]) scenarioFiles).1 =
        .error .runtimePanic := by
  decide

/-- C11, amended.  When the output of the inspection tool decodes to a
document whose fields have the types `opaeBitStream.validate` asserts, where
they are present, and whose list of clusters has a first entry, `validate`
returns without a panic, and it returns the validation error of the first
failing check: `afu-image` absent, `interface-uuid` absent,
`accelerator-clusters` absent, the identity of the interface not the region of
the request, `accelerator-type-uuid` of the first entry absent, or the
identity of the function not the one of the request. -/
theorem validate_returns_on_shaped_output {σ : Type} (w : World σ) (s s1 : σ)
    (bitStream : opaeBitStream) (output : GoString) (content : JSONMap)
    (hrun : w.combinedOutput s packager ["gbs-info".toList, "--gbs".toList, bitStream.path] =
      ((output, none), s1))
    (hdecode : w.decodeJSONStream output = .ok content)
    (hshape : gbsInfoShaped content = true) :
    (bitStream.validate w s).1 ≠ .error .runtimePanic ∧
    (content.lookup "afu-image".toList = none →
      (bitStream.validate w s).1 =
        .error (.fieldNotFound bitStream.params.region bitStream.params.afu
          "afu-image".toList)) ∧
    (∀ afuImage, content.lookup "afu-image".toList = some (.object afuImage) →
      (afuImage.lookup "interface-uuid".toList = none →
        (bitStream.validate w s).1 =
          .error (.fieldNotFound bitStream.params.region bitStream.params.afu
            "interface-uuid".toList)) ∧
      (afuImage.lookup "interface-uuid".toList ≠ none →
        afuImage.lookup "accelerator-clusters".toList = none →
        (bitStream.validate w s).1 =
          .error (.fieldNotFound bitStream.params.region bitStream.params.afu
            "accelerator-clusters".toList)) ∧
      (∀ interfaceUUID, afuImage.lookup "interface-uuid".toList = some (.string interfaceUUID) →
        afuImage.lookup "accelerator-clusters".toList ≠ none →
        canonize interfaceUUID ≠ bitStream.params.region →
        (bitStream.validate w s).1 =
          .error (.regionMismatch bitStream.params.region interfaceUUID)) ∧
      (∀ interfaceUUID firstCluster otherClusters,
        afuImage.lookup "interface-uuid".toList = some (.string interfaceUUID) →
        canonize interfaceUUID = bitStream.params.region →
        afuImage.lookup "accelerator-clusters".toList =
          some (.array (.object firstCluster :: otherClusters)) →
        (firstCluster.lookup "accelerator-type-uuid".toList = none →
          (bitStream.validate w s).1 =
            .error (.fieldNotFound bitStream.params.region bitStream.params.afu
              "accelerator-type-uuid".toList)) ∧
        (∀ acceleratorTypeUUID,
          firstCluster.lookup "accelerator-type-uuid".toList =
            some (.string acceleratorTypeUUID) →
          canonize acceleratorTypeUUID ≠ bitStream.params.afu →
          (bitStream.validate w s).1 =
            .error (.afuMismatch bitStream.params.afu acceleratorTypeUUID)))) := by
  rw [validate_eq_checkGbsInfo w s s1 bitStream output content hrun hdecode]
  exact checkGbsInfo_shaped _ _ content hshape

/-- Witness of C11: the image of the scenario, inspected as a document whose
first cluster has no `accelerator-type-uuid`. -/
theorem validate_returns_on_shaped_output_witness :
    (scenarioBitStream.validate
      (tableWorld [("AB-CD/12-34".toList, untypedClusterDocument)]) scenarioFiles).1 =
        .error (.fieldNotFound scenarioBitStream.params.region scenarioBitStream.params.afu
          "accelerator-type-uuid".toList) :=
  ((((validate_returns_on_shaped_output
    (tableWorld [("AB-CD/12-34".toList, untypedClusterDocument)]) scenarioFiles scenarioFiles
    scenarioBitStream "AB-CD/12-34".toList untypedClusterDocument
    (by decide) rfl (by decide)).2.2
      [("interface-uuid".toList, .string "AB-CD".toList),
       ("accelerator-clusters".toList, .array [.object []])] rfl).2.2.2
      "AB-CD".toList [] [] rfl (by decide) rfl).1 rfl)

/-- C13.  `getBitStream` looks for `<dir>/<region>/<afu>.gbs` first: when it
exists the result is the format-A bitstream, whatever the `.aocx` file is; an
error of `os.Stat` other than not-found is returned for the extension being
tried; the format-B bitstream is the result when the `.gbs` file does not
exist and the `.aocx` file exists, and only then; when neither exists the
result is the not-found error. -/
theorem getBitStream_priority {σ : Type} (he : hookEnv) (w : World σ) (s : σ)
    (params : fpgaParams) :
    (w.stat s (bitStreamPathOf he params ".gbs".toList) = .found →
      getBitStream he w s params =
        (.ok (.opae { path := bitStreamPathOf he params ".gbs".toList, params := params }),
          [.stat (bitStreamPathOf he params ".gbs".toList)])) ∧
    (∀ err, w.stat s (bitStreamPathOf he params ".gbs".toList) = .failed err →
      getBitStream he w s params =
        (.error (.statFailed (bitStreamPathOf he params ".gbs".toList) err),
          [.stat (bitStreamPathOf he params ".gbs".toList)])) ∧
    (w.stat s (bitStreamPathOf he params ".gbs".toList) = .notExist →
      w.stat s (bitStreamPathOf he params ".aocx".toList) = .found →
      getBitStream he w s params =
        (.ok (.openCL { path := bitStreamPathOf he params ".aocx".toList, params := params }),
          [.stat (bitStreamPathOf he params ".gbs".toList),
           .stat (bitStreamPathOf he params ".aocx".toList)])) ∧
    (∀ err, w.stat s (bitStreamPathOf he params ".gbs".toList) = .notExist →
      w.stat s (bitStreamPathOf he params ".aocx".toList) = .failed err →
      getBitStream he w s params =
        (.error (.statFailed (bitStreamPathOf he params ".aocx".toList) err),
          [.stat (bitStreamPathOf he params ".gbs".toList),
           .stat (bitStreamPathOf he params ".aocx".toList)])) ∧
    (w.stat s (bitStreamPathOf he params ".gbs".toList) = .notExist →
      w.stat s (bitStreamPathOf he params ".aocx".toList) = .notExist →
      getBitStream he w s params =
        (.error (.bitstreamNotFound params.region params.afu),
          [.stat (bitStreamPathOf he params ".gbs".toList),
           .stat (bitStreamPathOf he params ".aocx".toList)])) ∧
    (∀ bitStream, (getBitStream he w s params).1 = .ok (.openCL bitStream) →
      w.stat s (bitStreamPathOf he params ".gbs".toList) = .notExist ∧
      w.stat s (bitStreamPathOf he params ".aocx".toList) = .found) := by
  rw [getBitStream_eq]
  refine ⟨?_, ?_, ?_, ?_, ?_, ?_⟩
  · intro h; rw [h]
  · intro err h; rw [h]
  · intro h1 h2; rw [h1]; simp only; rw [h2]
  · intro err h1 h2; rw [h1]; simp only; rw [h2]
  · intro h1 h2; rw [h1]; simp only; rw [h2]
  · intro b h
    cases h1 : w.stat s (bitStreamPathOf he params ".gbs".toList) with
    | found => rw [h1] at h; simp at h
    | failed err => rw [h1] at h; simp at h
    | notExist =>
      rw [h1] at h
      simp only at h
      cases h2 : w.stat s (bitStreamPathOf he params ".aocx".toList) with
      | found => exact ⟨rfl, rfl⟩
      | failed err => rw [h2] at h; simp at h
      | notExist => rw [h2] at h; simp at h

/-- Witness of C13: the `.gbs` image of the scenario, the `.aocx` image of the
batch, and a request without any image. -/
theorem getBitStream_priority_witness :
    getBitStream mainEnv (demoWorld inOrder) scenarioFiles scenarioRequest =
        (.ok (.opae { path := bitStreamPathOf mainEnv scenarioRequest ".gbs".toList,
                      params := scenarioRequest }),
          [.stat (bitStreamPathOf mainEnv scenarioRequest ".gbs".toList)]) ∧
    getBitStream mainEnv (demoWorld inOrder) batchFiles scenarioRequest =
        (.ok (.openCL { path := bitStreamPathOf mainEnv scenarioRequest ".aocx".toList,
                        params := scenarioRequest }),
          [.stat (bitStreamPathOf mainEnv scenarioRequest ".gbs".toList),
           .stat (bitStreamPathOf mainEnv scenarioRequest ".aocx".toList)]) ∧
    getBitStream mainEnv (demoWorld inOrder) batchFiles requestWithoutImage =
        (.error (.bitstreamNotFound requestWithoutImage.region requestWithoutImage.afu),
          [.stat (bitStreamPathOf mainEnv requestWithoutImage ".gbs".toList),
           .stat (bitStreamPathOf mainEnv requestWithoutImage ".aocx".toList)]) :=
  ⟨(getBitStream_priority mainEnv (demoWorld inOrder) scenarioFiles scenarioRequest).1
      (by decide),
   (getBitStream_priority mainEnv (demoWorld inOrder) batchFiles scenarioRequest).2.2.1
      (by decide) (by decide),
   (getBitStream_priority mainEnv (demoWorld inOrder) batchFiles requestWithoutImage).2.2.2.2.1
      (by decide) (by decide)⟩

/-! ## The annotation gate and the bundle configuration: claims C12, C16 and C17 -/

/-- C12 as stated, refuted at a concrete request.  The request decodes to a
document without the field `annotations`, so the annotation
`com.intel.fpga.mode` is absent; `process` fails with the error of line 333
instead of returning success. -/
theorem request_without_annotations_fails :
    (tableWorld [("request".toList, requestWithoutAnnotations)]).decodeJSONStream
        "request".toList = .ok requestWithoutAnnotations ∧
    requestWithoutAnnotations.lookup "annotations".toList = none ∧
    process mainEnv (tableWorld [("request".toList, requestWithoutAnnotations)]) bundleFiles
        "request".toList = (.error .noAnnotations, bundleFiles, []) := by
  refine ⟨rfl, rfl, by decide⟩

/-- C12, amended.  When the request decodes to a document whose field
`annotations` is an object in which the annotation `com.intel.fpga.mode` is
absent or is not the string `fpga.intel.com/region`, `process` returns success
as a no-op: the state is unchanged and there is no event, so no bundle
configuration and no hardware-reported file is read and no command is run. -/
theorem annotation_gate_is_a_no_op {σ : Type} (he : hookEnv) (w : World σ) (s : σ)
    (reader : GoString) (content annotations : JSONMap)
    (hdecode : w.decodeJSONStream reader = .ok content)
    (hannotations : content.lookup "annotations".toList = some (.object annotations))
    (hgate : annotations.lookup annotationName = none ∨
      ∃ modeValue, annotations.lookup annotationName = some modeValue ∧
        modeValue ≠ .string annotationValue) :
    process he w s reader = (.ok (), s, []) := by
  unfold process
  simp only [hdecode, hannotations]
  rcases hgate with h | ⟨modeValue, h, hne⟩
  · simp only [h]
  · simp only [h]
    cases modeValue with
    | string v =>
      have hv : v ≠ annotationValue := fun e => hne (by rw [e])
      simp only [ne_eq, hv, not_false_eq_true, if_true]
    | null => rfl
    | bool b => rfl
    | number n => rfl
    | array a => rfl
    | object o => rfl

/-- Witness of C12: a request whose modeValue has the value
`fpga.intel.com/af`. -/
theorem annotation_gate_is_a_no_op_witness :
    process mainEnv (tableWorld [("request".toList, requestOtherMode)]) bundleFiles
      "request".toList = (.ok (), bundleFiles, []) :=
  annotation_gate_is_a_no_op mainEnv (tableWorld [("request".toList, requestOtherMode)])
    bundleFiles "request".toList requestOtherMode
    [("com.intel.fpga.mode".toList, .string "fpga.intel.com/af".toList)] rfl rfl
    (Or.inr ⟨.string "fpga.intel.com/af".toList, rfl, by
      intro h
      injection h with h1
      exact absurd h1 (by decide)⟩)

/-- C16 as stated, refuted at a concrete bundle configuration.  The
configuration has no field `linux` and its field `process` is a number; the
type assertion of line 192 panics before the field `linux` is looked up, so
`getFPGAParams` does not return a missing-field error. -/
theorem number_process_config_panics :
    numberProcessConfig.lookup "linux".toList = none ∧
    (tableWorld [("config".toList, numberProcessConfig)]).readFile bundleFiles
        "/run/bundle/config.json".toList = .ok "config".toList ∧
    (tableWorld [("config".toList, numberProcessConfig)]).decodeJSONStream "config".toList =
        .ok numberProcessConfig ∧
    getFPGAParams mainEnv (tableWorld [("config".toList, numberProcessConfig)]) bundleFiles
        requestWithBundle =
      (.error .runtimePanic, [.readFile "/run/bundle/config.json".toList]) := by
  refine ⟨rfl, rfl, rfl, by decide⟩

/-- C16, amended.  When the request has no field `bundle`, `getFPGAParams`
fails with the error of line 172.  When the bundle configuration is read and
decoded, its fields `process` and `linux` are objects where they are present,
and one of `process`, `env` inside `process`, `linux` and `devices` inside
`linux` is absent, `getFPGAParams` fails with the missing-field error that
names an absent field, after the single read of the configuration, with no
request. -/
theorem missing_field_fails {σ : Type} (he : hookEnv) (w : World σ) (s : σ)
    (content : JSONMap) :
    (content.lookup "bundle".toList = none →
      getFPGAParams he w s content = (.error .noBundle, [])) ∧
    (∀ (bundle : JSON) (configFile : GoString) (config : JSONMap) (field : GoString),
      content.lookup "bundle".toList = some bundle →
      w.readFile s (filepathJoin [w.sprint bundle, he.config]) = .ok configFile →
      w.decodeJSONStream configFile = .ok config →
      configShaped config = true →
      AbsentField config field →
      ∃ named, AbsentField config named ∧
        getFPGAParams he w s content =
          (.error (.configFieldNotFound named (filepathJoin [w.sprint bundle, he.config])),
            [.readFile (filepathJoin [w.sprint bundle, he.config])])) := by
  constructor
  · intro h
    simp only [getFPGAParams, h]
  · intro bundle configFile config field hb hr hd hshape habsent
    unfold getFPGAParams
    simp only [hb, hr, hd]
    have hp : ∀ v, config.lookup "process".toList = some v → ∃ p, v = .object p := by
      intro v hv
      unfold configShaped at hshape
      rw [hv] at hshape
      cases v with
      | object p => exact ⟨p, rfl⟩
      | null => simp at hshape
      | bool _ => simp at hshape
      | number _ => simp at hshape
      | string _ => simp at hshape
      | array _ => simp at hshape
    have hl : ∀ v, config.lookup "linux".toList = some v → ∃ l, v = .object l := by
      intro v hv
      unfold configShaped at hshape
      rw [hv] at hshape
      simp only [Bool.and_eq_true] at hshape
      have h2 := hshape.2
      cases v with
      | object l => exact ⟨l, rfl⟩
      | null => simp at h2
      | bool _ => simp at h2
      | number _ => simp at h2
      | string _ => simp at h2
      | array _ => simp at h2
    cases hproc : config.lookup "process".toList with
    | none => exact ⟨"process".toList, Or.inl ⟨rfl, hproc⟩, rfl⟩
    | some v =>
      obtain ⟨processFields, rfl⟩ := hp v hproc
      simp only
      cases henv : processFields.lookup "env".toList with
      | none =>
        exact ⟨"env".toList, Or.inr (Or.inl ⟨rfl, processFields, hproc, henv⟩), rfl⟩
      | some rawEnv =>
        simp only
        cases hlin : config.lookup "linux".toList with
        | none => exact ⟨"linux".toList, Or.inr (Or.inr (Or.inl ⟨rfl, hlin⟩)), rfl⟩
        | some v =>
          obtain ⟨linuxFields, rfl⟩ := hl v hlin
          simp only
          cases hdev : linuxFields.lookup "devices".toList with
          | none =>
            exact ⟨"devices".toList,
              Or.inr (Or.inr (Or.inr ⟨rfl, linuxFields, hlin, hdev⟩)), rfl⟩
          | some rawDevices =>
            exfalso
            rcases habsent with ⟨_, h⟩ | ⟨_, p, h1, h2⟩ | ⟨_, h⟩ | ⟨_, l, h1, h2⟩
            · rw [hproc] at h; cases h
            · rw [hproc] at h1
              injection h1 with h1
              injection h1 with h1
              subst h1
              rw [henv] at h2; cases h2
            · rw [hlin] at h; cases h
            · rw [hlin] at h1
              injection h1 with h1
              injection h1 with h1
              subst h1
              rw [hdev] at h2; cases h2

/-- Witness of C16: a request without `bundle`, and a configuration without
`linux`. -/
theorem missing_field_fails_witness :
    getFPGAParams mainEnv (tableWorld [("config".toList, configWithoutLinux)]) bundleFiles
        requestWithoutBundle = (.error .noBundle, []) ∧
    ∃ named, AbsentField configWithoutLinux named ∧
      getFPGAParams mainEnv (tableWorld [("config".toList, configWithoutLinux)]) bundleFiles
          requestWithBundle =
        (.error (.configFieldNotFound named
            (filepathJoin [(tableWorld [("config".toList, configWithoutLinux)]).sprint
              (.string "/run/bundle".toList), mainEnv.config])),
          [.readFile (filepathJoin [(tableWorld [("config".toList, configWithoutLinux)]).sprint
              (.string "/run/bundle".toList), mainEnv.config])]) :=
  ⟨(missing_field_fails mainEnv (tableWorld [("config".toList, configWithoutLinux)])
      bundleFiles requestWithoutBundle).1 rfl,
   (missing_field_fails mainEnv (tableWorld [("config".toList, configWithoutLinux)])
      bundleFiles requestWithBundle).2 (.string "/run/bundle".toList) "config".toList
      configWithoutLinux "linux".toList rfl rfl rfl (by decide)
      (Or.inr (Or.inr (Or.inl ⟨rfl, rfl⟩)))⟩

/-- C17, at a failing input.  The claim: for a path
`/dev/intel-fpga-port.<N>` with a device number of one or more digits, the
parser extracts N and adds it to the device set.  The code: the regular
expression of line 40 ends with `(\d)$`, one digit; `/dev/intel-fpga-port.0`
yields the device number 0, and `/dev/intel-fpga-port.10` does not match, so
the loop of lines 224 to 229 leaves the device out of the set. -/
theorem device_path_regexp_takes_one_digit :
    fpgaDevREFind "/dev/intel-fpga-port.0".toList = some "0".toList ∧
    deviceSetLoop [] [deviceNode "/dev/intel-fpga-port.0".toList] = .ok ["0".toList] ∧
    fpgaDevREFind "/dev/intel-fpga-port.10".toList = none ∧
    deviceSetLoop [] [deviceNode "/dev/intel-fpga-port.10".toList] = .ok [] ∧
    deviceSetLoop [] [deviceNode "/dev/intel-fpga-port.0".toList,
      deviceNode "/dev/intel-fpga-port.10".toList] = .ok ["0".toList] := by
  decide

/-! ## Normalization: claims C14, C15 and C18 -/

/-- C14.  Normalization is idempotent: for every string, `canonize` leaves the
result of `canonize` unchanged. -/
theorem canonize_idempotent (x : GoString) : canonize (canonize x) = canonize x :=
  canonize_canonize x

/-- C15 as stated, refuted at a concrete string.  The character U+2102, the
double-struck capital C, is an upper-case letter (`unicode.IsUpper`) without a
lower-case form: `canonize` leaves the string of that one character
unchanged, so the result holds an upper-case letter. -/
theorem canonize_keeps_capital_without_lower_form :
    unicodeIsUpper (Char.ofNat 0x2102) = true ∧
    canonize [Char.ofNat 0x2102] = [Char.ofNat 0x2102] ∧
    Char.ofNat 0x2102 ∈ canonize [Char.ofNat 0x2102] := by
  decide

/-- C15, amended.  Normalization is insensitive to hyphens and case: two
strings differ only in the placement of hyphens and in the case of letters
exactly when `canonize` maps them to the same string; the result of `canonize`
holds no hyphen and no character that lower-casing changes, in particular no
letter from A to Z; and `canonize` maps `AB-CD` and `abcd` to `abcd`. -/
theorem canonize_hyphen_case_insensitive (x y : GoString) :
    (SameUpToHyphensAndCase x y ↔ canonize x = canonize y) ∧
    '-' ∉ canonize x ∧
    (∀ c ∈ canonize x, unicodeToLower c = c) ∧
    (∀ c ∈ canonize x, c.isUpper = false) ∧
    canonize "AB-CD".toList = canonize "abcd".toList ∧
    canonize "abcd".toList = "abcd".toList :=
  ⟨⟨canonize_eq_of_same, same_of_canonize_eq x y⟩, hyphen_not_mem_canonize x,
    unicodeToLower_of_mem_canonize x,
    fun c hc => not_isUpper_of_fixed c (unicodeToLower_of_mem_canonize x c hc),
    by decide, by decide⟩

/-- C18.  Every request `produceFPGAParams` emits carries its region and its
function in normalized form: `canonize` leaves both unchanged. -/
theorem requests_are_normalized {σ : Type} (he : hookEnv) (w : World σ) (s : σ)
    (regionEnv afuEnv : GoMap) (envSet devSet : GoSet) (params : List fpgaParams)
    (hok : (produceFPGAParams he w s regionEnv afuEnv envSet devSet).1 = .ok params) :
    ∀ p ∈ params, canonize p.region = p.region ∧ canonize p.afu = p.afu := by
  have hcount := counts_of_produceFPGAParams_ok he w s regionEnv afuEnv envSet devSet params hok
  rw [produceFPGAParams_of_counts he w s regionEnv afuEnv envSet devSet hcount] at hok
  exact produceLoop_canonical he w s regionEnv afuEnv _ _ _ _ (by simp) hok

/-- Witness of C18: the request for device 1 among the requests for the two
devices. -/
theorem requests_are_normalized_witness :
    canonize "ccdd".toList = "ccdd".toList ∧ canonize "f1f1".toList = "f1f1".toList :=
  requests_are_normalized mainEnv (demoWorld reversed) twoDeviceFiles twoDeviceRegionEnv
    twoDeviceAfuEnv ["0".toList, "1".toList] ["0".toList, "1".toList] twoDeviceRequests
    (by decide) { region := "ccdd".toList, afu := "f1f1".toList, devNum := "1".toList }
    (by decide)

/-! ## The partition step: claim C19 -/

/-- C19.  For declarations that are strings with an equals sign, the loop
over the environment never panics: the type assertions succeed, a key with the
prefix `FPGA_REGION_` or `FPGA_AFU_` splits at the underscores into exactly
three pieces, the third being the key without its prefix, and the loop ends
with a region map and an afu map that have as many entries as there are
distinct indices among the declarations of their kind, and with the index set
of both. -/
theorem partition_never_out_of_range (envs : List GoString)
    (hkv : ∀ env ∈ envs, '=' ∈ env) :
    envStrings (envs.map JSON.string) = .ok envs ∧
    (∀ key, hasPrefix key fpgaRegionEnvPrefix = true →
      splitN '_' 3 key =
        ["FPGA".toList, "REGION".toList, key.drop fpgaRegionEnvPrefix.length]) ∧
    (∀ key, hasPrefix key fpgaAfuEnvPrefix = true →
      splitN '_' 3 key =
        ["FPGA".toList, "AFU".toList, key.drop fpgaAfuEnvPrefix.length]) ∧
    ∃ maps, partitionEnv envs = .ok maps ∧
      maps.regionEnv.length = (regionIndices envs).dedup.length ∧
      maps.afuEnv.length = (afuIndices envs).dedup.length ∧
      (∀ i, i ∈ maps.envSet ↔ i ∈ regionIndices envs ∨ i ∈ afuIndices envs) := by
  refine ⟨envStrings_map_string envs, splitN_of_region_prefix, splitN_of_afu_prefix, ?_⟩
  obtain ⟨maps, hpart, hinv⟩ := partitionEnv_inv envs hkv
  obtain ⟨s1, s2, _⟩ := partition_sizes maps _ _ hinv
  refine ⟨maps, hpart, ?_, ?_, hinv.2.2.2.2.2⟩
  · rw [s1, List.card_toFinset]
  · rw [s2, List.card_toFinset]

/-- Witness of C19: a region under index 0, a function under index 1 and a
declaration of another name. -/
theorem partition_never_out_of_range_witness :
    ∃ maps, partitionEnv unpairedEnv = .ok maps ∧
      maps.regionEnv.length = (regionIndices unpairedEnv).dedup.length ∧
      maps.afuEnv.length = (afuIndices unpairedEnv).dedup.length ∧
      (∀ i, i ∈ maps.envSet ↔ i ∈ regionIndices unpairedEnv ∨ i ∈ afuIndices unpairedEnv) :=
  (partition_never_out_of_range unpairedEnv (by decide)).2.2.2

end FpgaCrihook
